import Mathlib

/-! SmartShot live-synchronisation core.

A shallow embedding of the server side (`server.js`: the `clients` set, `broadcast`,
the `connection` / `close` handlers, `getStats`, the chokidar `add` handler, the
queries of `/api/stats/detailed`, `/api/screenshots/recent` and `/api/search`, the
settings endpoints) and of the client side (`src/contexts/WebSocketContext.jsx`: `handleWebSocketMessage`, the
`connectWebSocket` handlers; `SettingsContext.jsx` and `SettingsPanel.jsx`: the settings
object and its reset), followed by the properties established about them.

Node and the browser run handlers one at a time on an event loop, so every handler is a
function from state to state and an execution is a list of events folded over the state.
-/

namespace SmartShot

/-! ## Record store (`server.js` 23-46) -/

/-- A value as SQLite stores it in a column of `NUMERIC` affinity, which `DATETIME` is:
`NULL`, an integer, a real (`⊥` and `⊤` standing for the two infinities), a text that is
not a well-formed number, or a blob. A text that is a well-formed number is stored as
that number. -/
inductive SqlValue
  | null
  | integer (n : Int)
  | real (x : WithBot (WithTop Rat))
  | text (s : String)
  | blob (bytes : List Nat)
  deriving DecidableEq

/-- One row of the `screenshots` table (`server.js` 25-37). Nullable text columns are
`Option`; `created_at` is declared `DATETIME` and holds whatever value was stored. -/
structure Screenshot where
  id : Nat
  file_path : String
  file_name : String
  file_size : Int
  file_hash : Option String
  category : Option String
  app_name : Option String
  window_title : Option String
  created_at : SqlValue
  ocr_text : Option String
  ocr_confidence : Option Rat
  deriving DecidableEq

/-- The object `getStats` resolves with (`server.js` 176-181). -/
structure Stats where
  totalScreenshots : Nat
  ocrProcessed : Nat
  categorized : Nat
  categories : Nat
  deriving DecidableEq

/-- The four `COUNT` queries of `getStats` (`server.js` 161-166) on the rows of the
`screenshots` table, on the path where every query succeeds. A comparison with `NULL`
is not true in SQL, so a row whose column is `NULL` is counted by none of the filters. -/
def getStats (rows : List Screenshot) : Stats :=
  { totalScreenshots := rows.length
    ocrProcessed := rows.countP (fun r => r.ocr_text.isSome && r.ocr_text != some "")
    categorized :=
      rows.countP (fun r => r.category.isSome && r.category != some "Uncategorized")
    categories := (rows.filterMap (fun r => r.category)).dedup.length }

/-! ## Messages (`server.js` 57-60, 315-332) -/

/-- The payload object built by the watcher for a `new_screenshot` message
(`server.js` 317-324). -/
structure Activity where
  id : Nat
  type : String
  message : String
  details : String
  timestamp : String
  status : String
  deriving DecidableEq

/-- The two message envelopes `{ type, payload }` the server constructs. -/
inductive Message
  | stats_update (payload : Stats)
  | new_screenshot (payload : Activity)
  deriving DecidableEq

/-- The `type` field of a server message. -/
def Message.type : Message → String
  | .stats_update _ => "stats_update"
  | .new_screenshot _ => "new_screenshot"

/-- A text frame handed to `ws.send`. `JSON.stringify` is a language built-in, so the
frame `JSON.stringify(message)` is represented by the message that was serialised. -/
inductive Frame
  | stringify (message : Message)
  deriving DecidableEq

/-! ## Server-side sockets and the `clients` set (`server.js` 48-76) -/

/-- The `readyState` of a `ws` socket. -/
inductive ReadyState
  | CONNECTING
  | OPEN
  | CLOSING
  | CLOSED
  deriving DecidableEq

/-- A server-side `ws` object: its `readyState` and the frames written to it so far,
oldest first. -/
structure WebSocket where
  readyState : ReadyState
  sent : List Frame
  deriving DecidableEq

/-- The `ws.send(data)` of the `ws` library: the frame is written when the socket is open
and dropped otherwise. -/
def WebSocket.send (ws : WebSocket) (data : Frame) : WebSocket :=
  if ws.readyState = ReadyState.OPEN then { ws with sent := ws.sent ++ [data] } else ws

/-- The `Set.prototype.add` on a set kept in insertion order: an element already present
is not added again. -/
def setAdd (x : Nat) (s : List Nat) : List Nat :=
  if x ∈ s then s else s ++ [x]

/-- The `Set.prototype.delete`: the element is removed, the others keep their order. -/
def setDelete (x : Nat) (s : List Nat) : List Nat :=
  s.filter (fun y => y ≠ x)

/-- What runs when a `getStats()` promise resolves: the `.then` callback of the connection
handler (`server.js` 56-61) for socket `ws`, or the one of the watcher (`server.js`
328-333). Neither call site has a `.catch`. -/
inductive Continuation
  | sendInitialStats (ws : Nat)
  | broadcastStats
  deriving DecidableEq

/-- The reading of the clock taken by the watcher: `Date.now()` and
`new Date().toISOString()`. -/
structure Clock where
  now : Nat
  iso : String
  deriving DecidableEq

/-- The state of the server process: the rows of the `screenshots` table, the socket
objects by identity, the `clients` set in insertion order, the `getStats()` promises not
yet settled (oldest first), and the log of the calls of `broadcast` made so far. -/
structure Server where
  db : List Screenshot
  sockets : Nat → WebSocket
  clients : List Nat
  pending : List Continuation
  broadcasts : List Message

/-- The function `broadcast` (`server.js` 70-76): every client of the set, in insertion
order, is sent the serialised message when its `readyState` is `OPEN`. -/
def broadcast (message : Message) (s : Server) : Server :=
  { s with
    sockets := s.clients.foldl (fun heap client =>
      if (heap client).readyState = ReadyState.OPEN then
        Function.update heap client ((heap client).send (Frame.stringify message))
      else heap) s.sockets
    broadcasts := s.broadcasts ++ [message] }

/-- The body of `wss.on('connection', ...)` (`server.js` 51-67) for the socket `ws`: the
socket joins `clients` and a `getStats()` promise is left pending whose callback sends
the initial statistics. -/
def onConnection (ws : Nat) (s : Server) : Server :=
  { s with
    clients := setAdd ws s.clients
    pending := s.pending ++ [Continuation.sendInitialStats ws] }

/-- The body of `ws.on('close', ...)` (`server.js` 63-66). -/
def onClose (ws : Nat) (s : Server) : Server :=
  { s with clients := setDelete ws s.clients }

/-- The `path.basename(filePath)` of POSIX paths: trailing slashes are ignored and the
part after the last remaining slash is returned. -/
def basename (filePath : String) : String :=
  String.mk (((filePath.toList.reverse.dropWhile (fun c => c = '/')).takeWhile
    (fun c => c ≠ '/')).reverse)

/-- The alternatives of the regular expression of `server.js` 311. -/
def imageExtensions : List String := ["png", "jpg", "jpeg", "gif", "bmp"]

/-- The test `/\.(png|jpg|jpeg|gif|bmp)$/i.test(fileName)` (`server.js` 311): the name
ends with a dot and one of the extensions, letters compared without case. -/
def isImageName (fileName : String) : Bool :=
  imageExtensions.any (fun e =>
    ('.' :: e.toList).isSuffixOf (fileName.toList.map Char.toLower))

/-- The payload built at `server.js` 317-324. -/
def screenshotProcessed (fileName : String) (clock : Clock) : Activity :=
  { id := clock.now
    type := "screenshot_processed"
    message := "New screenshot processed"
    details := fileName
    timestamp := clock.iso
    status := "success" }

/-- The body of `watcher.on('add', ...)` (`server.js` 309-335). -/
def watcherOnAdd (filePath : String) (clock : Clock) (s : Server) : Server :=
  let fileName := basename filePath
  if isImageName fileName then
    let s1 := broadcast (Message.new_screenshot (screenshotProcessed fileName clock)) s
    { s1 with pending := s1.pending ++ [Continuation.broadcastStats] }
  else s

/-- A `getStats()` promise settles. `result` is `none` when a query failed: the promise
rejects and, no rejection handler being attached, no callback of the server runs. -/
def settle (k : Continuation) (result : Option Stats) (s : Server) : Server :=
  match result with
  | none => s
  | some stats =>
    match k with
    | Continuation.sendInitialStats ws =>
      { s with
        sockets := Function.update s.sockets ws
          ((s.sockets ws).send (Frame.stringify (Message.stats_update stats))) }
    | Continuation.broadcastStats => broadcast (Message.stats_update stats) s

/-- What the event loop of the server can deliver. -/
inductive Event
  /-- The `wss` server emits `connection` with a new, open socket. -/
  | connection (ws : Nat)
  /-- The transport of a socket changes its `readyState` (no handler of the server runs). -/
  | transport (ws : Nat) (readyState : ReadyState)
  /-- A socket emits `close`: it is `CLOSED` and the close handler runs. -/
  | close (ws : Nat)
  /-- The chokidar watcher emits `add`. -/
  | add (filePath : String) (clock : Clock)
  /-- The `i`-th pending `getStats()` promise settles; the queries read the table now. -/
  | statsSettled (i : Nat) (ok : Bool)

/-- One turn of the event loop of the server. -/
def step (s : Server) : Event → Server
  | Event.connection ws =>
    onConnection ws { s with sockets := Function.update s.sockets ws ⟨ReadyState.OPEN, []⟩ }
  | Event.transport ws st =>
    { s with sockets := Function.update s.sockets ws { (s.sockets ws) with readyState := st } }
  | Event.close ws =>
    onClose ws { s with
      sockets := Function.update s.sockets ws
        { (s.sockets ws) with readyState := ReadyState.CLOSED } }
  | Event.add filePath clock => watcherOnAdd filePath clock s
  | Event.statsSettled i ok =>
    match s.pending[i]? with
    | none => s
    | some k =>
      settle k (if ok then some (getStats s.db) else none)
        { s with pending := s.pending.eraseIdx i }

/-- The server after the events of `trace`, in order. -/
def run (s : Server) (trace : List Event) : Server :=
  trace.foldl step s

/-- The server right after start-up on a table holding `rows`: no socket was ever
connected, `clients` is empty, nothing is pending. -/
def Server.start (rows : List Screenshot) : Server :=
  { db := rows
    sockets := fun _ => ⟨ReadyState.CLOSED, []⟩
    clients := []
    pending := []
    broadcasts := [] }

/-! ## Client (`src/contexts/WebSocketContext.jsx`) -/

/-- A JavaScript value as `JSON.parse` returns it, together with `undefined`, the value
of a property that is absent. Numbers are never inspected by the client and are kept as
integers. -/
inductive JVal
  | undefined
  | null
  | bool (b : Bool)
  | num (n : Int)
  | str (s : String)
  | arr (items : List JVal)
  | obj (fields : List (String × JVal))

/-- The property reads `data.type` and `data.payload`: reading a property of `null` or
`undefined` throws a `TypeError`; an object gives the value stored under the key, or
`undefined`; no other value has a property of either name. -/
def JVal.prop (v : JVal) (key : String) : Except String JVal :=
  match v with
  | JVal.undefined => Except.error "TypeError"
  | JVal.null => Except.error "TypeError"
  | JVal.obj fields => Except.ok ((fields.lookup key).getD JVal.undefined)
  | _ => Except.ok JVal.undefined

/-- The comparison made by a `case '...':` label of a `switch`: strict equality with a
string literal. -/
def JVal.isStr (v : JVal) (label : String) : Bool :=
  match v with
  | JVal.str s => s == label
  | _ => false

/-- The callbacks passed to `setTimeout` in the provider. -/
inductive Callback
  | connectWebSocket
  deriving DecidableEq

/-- A pending `setTimeout(callback, delay)`, the delay in milliseconds. -/
structure Timer where
  callback : Callback
  delay : Nat
  deriving DecidableEq

/-- The state of `WebSocketProvider`: its four `useState` cells
(`WebSocketContext.jsx` 14-17), the timers it has scheduled and not yet fired (oldest
first), and the number of `WebSocket` objects constructed so far, which numbers the
connection attempts. -/
structure Client where
  socket : Option Nat
  isConnected : Bool
  stats : JVal
  recentActivity : List JVal
  timers : List Timer
  created : Nat

/-- The function `handleWebSocketMessage` (`WebSocketContext.jsx` 71-85). The result is
an error when the evaluation throws. -/
def handleWebSocketMessage (data : JVal) (c : Client) : Except String Client :=
  match data.prop "type" with
  | Except.error e => Except.error e
  | Except.ok t =>
    if t.isStr "stats_update" then
      (data.prop "payload").map (fun p => { c with stats := p })
    else if t.isStr "new_screenshot" then
      (data.prop "payload").map (fun p =>
        { c with recentActivity := p :: c.recentActivity.take 9 })
    else if t.isStr "activity_update" then
      (data.prop "payload").map (fun p =>
        { c with recentActivity := p :: c.recentActivity.take 9 })
    else Except.ok c

/-- The handler `ws.onmessage` (`WebSocketContext.jsx` 31-38). `parsed` is the outcome of
`JSON.parse(event.data)`; whatever is thrown inside the `try` is caught and logged. -/
def ws_onmessage (parsed : Except String JVal) (c : Client) : Client :=
  match parsed with
  | Except.error _ => c
  | Except.ok data =>
    match handleWebSocketMessage data c with
    | Except.error _ => c
    | Except.ok c1 => c1

/-- The handler `ws.onopen` (`WebSocketContext.jsx` 25-29) of socket `ws`. -/
def ws_onopen (ws : Nat) (c : Client) : Client :=
  { c with isConnected := true, socket := some ws }

/-- The handler `ws.onclose` (`WebSocketContext.jsx` 40-47). -/
def ws_onclose (c : Client) : Client :=
  { c with
    isConnected := false
    socket := none
    timers := c.timers ++ [⟨Callback.connectWebSocket, 5000⟩] }

/-- The handler `ws.onerror` (`WebSocketContext.jsx` 49-52). -/
def ws_onerror (c : Client) : Client :=
  { c with isConnected := false }

/-- The function `connectWebSocket` (`WebSocketContext.jsx` 21-59). `constructed` tells
whether `new WebSocket(...)` returned; when it threw, the `catch` schedules a retry. -/
def connectWebSocket (constructed : Bool) (c : Client) : Client :=
  if constructed then { c with created := c.created + 1 }
  else { c with timers := c.timers ++ [⟨Callback.connectWebSocket, 5000⟩] }

/-- What the event loop of the browser can deliver to the provider. -/
inductive ClientEvent
  /-- The socket `ws` opened. -/
  | onopen (ws : Nat)
  /-- A frame arrived; `parsed` is the outcome of `JSON.parse` on it. -/
  | onmessage (parsed : Except String JVal)
  /-- A socket closed. -/
  | onclose
  /-- A socket reported an error. -/
  | onerror
  /-- The `i`-th pending timer fires. -/
  | timeout (i : Nat) (constructed : Bool)

/-- One turn of the event loop of the client. -/
def clientStep (c : Client) : ClientEvent → Client
  | ClientEvent.onopen ws => ws_onopen ws c
  | ClientEvent.onmessage parsed => ws_onmessage parsed c
  | ClientEvent.onclose => ws_onclose c
  | ClientEvent.onerror => ws_onerror c
  | ClientEvent.timeout i constructed =>
    match c.timers[i]? with
    | none => c
    | some t =>
      match t.callback with
      | Callback.connectWebSocket =>
        connectWebSocket constructed { c with timers := c.timers.eraseIdx i }

/-- The provider after mounting: the initial `useState` values and the first call of
`connectWebSocket` made by the effect (`WebSocketContext.jsx` 61). -/
def Client.mount (constructed : Bool) : Client :=
  connectWebSocket constructed
    { socket := none, isConnected := false, stats := JVal.null, recentActivity := [],
      timers := [], created := 0 }

/-- The client after the events of `trace`, in order. -/
def clientRun (c : Client) (trace : List ClientEvent) : Client :=
  trace.foldl clientStep c

/-- The property `data.type` names one of the activity kinds `new_screenshot` or
`activity_update`. -/
def isActivityMessage (data : JVal) : Bool :=
  match data.prop "type" with
  | Except.error _ => false
  | Except.ok t => t.isStr "new_screenshot" || t.isStr "activity_update"

/-- The specification of the activity list: the payloads of the activity messages among
`msgs` (received oldest first), newest first, cut to the ten most recent. -/
def spec_recentActivity (msgs : List JVal) : List JVal :=
  (((msgs.filter isActivityMessage).map
    (fun d => ((d.prop "payload").toOption).getD JVal.undefined)).reverse).take 10

/-- The client after handing every parsed message of `msgs`, oldest first, to
`ws.onmessage`. -/
def receiveAll (msgs : List JVal) (c : Client) : Client :=
  msgs.foldl (fun st data => ws_onmessage (Except.ok data) st) c

/-! ## Concrete executions -/

/-- A clock reading used in the examples. -/
def sampleClock : Clock := ⟨1700000000000, "2023-11-14T22:13:20.000Z"⟩

/-- A viewer connects, the watcher reports a new image, and only then does the
`getStats()` promise of the connection handler resolve. -/
def raceTrace : List Event :=
  [Event.connection 0,
   Event.add "/home/u/Pictures/Screenshots/a.png" sampleClock,
   Event.statsSettled 0 true]

/-- Three registered viewers, the second of which has a closed transport. -/
def oneClosedServer : Server :=
  run (Server.start [])
    [Event.connection 0, Event.connection 1, Event.connection 2,
     Event.transport 1 ReadyState.CLOSED]

/-- A `stats_update` message used in the examples. -/
def sampleStatsUpdate : Message := Message.stats_update ⟨3, 2, 1, 1⟩

/-- A burst of twelve `new_screenshot` messages whose payloads are the numbers 0 to 11,
in the order received. -/
def burst : List JVal :=
  (List.range 12).map (fun i =>
    JVal.obj [("type", JVal.str "new_screenshot"), ("payload", JVal.num (Int.ofNat i))])

/-- A connected client whose activity list is full and whose snapshot is `null`. -/
def fullClient : Client :=
  receiveAll burst (ws_onopen 0 (Client.mount true))

/-- An `activity_update` message with a string payload. -/
def sampleActivityUpdate : JVal :=
  JVal.obj [("type", JVal.str "activity_update"), ("payload", JVal.str "renamed")]

/-- A `stats_update` message as the client receives it. -/
def sampleStatsData : JVal :=
  JVal.obj [("type", JVal.str "stats_update"),
    ("payload", JVal.obj [("totalScreenshots", JVal.num 3), ("ocrProcessed", JVal.num 2),
      ("categorized", JVal.num 1), ("categories", JVal.num 1)])]

/-- A message of a kind the client does not know. -/
def sampleUnknown : JVal :=
  JVal.obj [("type", JVal.str "ping"), ("payload", JVal.null)]

/-! ## Breakdown queries of `/api/stats/detailed` (`server.js` 205-219) -/

/-- The SQL division of two numeric values, at least one of them `REAL`: the result is
`NULL` when the divisor is zero. `REAL` values are kept as exact rationals. -/
def sqlDiv (a b : Rat) : Option Rat :=
  if b = 0 then none else some (a / b)

/-- The SQL function `ROUND(x, 1)` on an exact value: the nearest multiple of one tenth.
A value halfway between two tenths goes away from zero here; the engine decides such a
tie on the binary `REAL` it computed, and no property below depends on the choice. -/
def round1 (x : Rat) : Rat :=
  if 0 ≤ x then ((Int.floor (x * 10 + 1 / 2) : Int) : Rat) / 10
  else -(((Int.floor (-x * 10 + 1 / 2) : Int) : Rat) / 10)

/-- The expression `ROUND(COUNT(*) * 100.0 / (SELECT COUNT(*) FROM screenshots), 1)`
(`server.js` 207, 215) for a group of `count` rows in a table of `total` rows; a
function applied to `NULL` is `NULL`. -/
def percentage (count total : Nat) : Option Rat :=
  (sqlDiv ((count : Rat) * 100) (total : Rat)).map round1

/-- One row returned by a breakdown query: the grouping column, `count` and
`percentage`. The `trend` the handler adds afterwards is random mock data and is left
out. -/
structure Group where
  label : String
  count : Nat
  percentage : Option Rat
  deriving DecidableEq

/-- The groups of `SELECT key, COUNT(*), ROUND(...) FROM screenshots WHERE key IS NOT
NULL GROUP BY key`, one per distinct value of the column, before ordering. -/
def breakdownGroups (key : Screenshot → Option String) (rows : List Screenshot) : List Group :=
  (rows.filterMap key).dedup.map (fun l =>
    { label := l
      count := (rows.filterMap key).count l
      percentage := percentage ((rows.filterMap key).count l) rows.length })

/-- The order `ORDER BY count DESC` puts two groups in. -/
def countDesc (a b : Group) : Prop := b.count ≤ a.count

instance : DecidableRel countDesc :=
  fun a b => inferInstanceAs (Decidable (b.count ≤ a.count))

instance : IsTotal Group countDesc :=
  ⟨fun a b => Nat.le_total b.count a.count⟩

instance : IsTrans Group countDesc :=
  ⟨fun _ _ _ hab hbc => Nat.le_trans hbc hab⟩

/-- The clause `ORDER BY count DESC` (`server.js` 211, 219): `result` lists the groups
with no count below a later one. The statement names no second sort key, so among
groups of equal count every order is a possible answer of the database engine. -/
def IsBreakdown (key : Screenshot → Option String) (rows : List Screenshot)
    (result : List Group) : Prop :=
  result.Perm (breakdownGroups key rows) ∧ result.Sorted countDesc

/-- One possible answer to a breakdown query: the groups in order of first occurrence,
sorted by count with a stable sort. -/
def stableBreakdown (key : Screenshot → Option String) (rows : List Screenshot) :
    List Group :=
  (breakdownGroups key rows).insertionSort countDesc

/-- The sum of the `percentage` fields of a result, a `NULL` counting as zero. -/
def percentageSum (result : List Group) : Rat :=
  (result.map (fun g => g.percentage.getD 0)).sum

/-- The specification of a value rounded to one decimal place: `p` is a whole number of
tenths and no other such number is nearer to `x`. -/
def spec_roundedToOneDecimal (p x : Rat) : Prop :=
  (∃ k : Int, p = (k : Rat) / 10) ∧ |p - x| ≤ 1 / 20

/-! ## Query parameters and record queries (`server.js` 80-132, 196-245) -/

/-- The white space and line terminators that `parseInt` skips at the start of its
input. -/
def isJsWhiteSpace (c : Char) : Bool :=
  [9, 10, 11, 12, 13, 32, 160, 5760, 8232, 8233, 8239, 8287, 12288, 65279].contains c.toNat ||
    (8192 ≤ c.toNat && c.toNat ≤ 8202)

/-- The value of a character as a digit of the given radix, if it is one. -/
def digitValue (radix : Nat) (c : Char) : Option Nat :=
  let v :=
    if '0' ≤ c ∧ c ≤ '9' then some (c.toNat - 48)
    else if 'a' ≤ c ∧ c ≤ 'z' then some (c.toNat - 87)
    else if 'A' ≤ c ∧ c ≤ 'Z' then some (c.toNat - 55)
    else none
  v.filter (fun d => d < radix)

/-- The built-in `parseInt(input)` called without a radix; `none` stands for `NaN`. An
absent parameter is `undefined`, whose string form holds no digit. Leading white space
is skipped, a sign and then a prefix `0x` or `0X` are taken, and the longest run of
digits is read; the result is kept as an exact integer (a JavaScript number loses
precision on very long runs of digits, never to the point of becoming zero). -/
def parseInt (input : Option String) : Option Int :=
  match input with
  | none => none
  | some s =>
    let trimmed := s.toList.dropWhile isJsWhiteSpace
    let negative := trimmed.head? = some '-'
    let unsigned :=
      if trimmed.head? = some '-' ∨ trimmed.head? = some '+' then trimmed.tail else trimmed
    let hex := ['0', 'x'].isPrefixOf unsigned || ['0', 'X'].isPrefixOf unsigned
    let radix := if hex then 16 else 10
    let body := if hex then unsigned.drop 2 else unsigned
    let digits := (body.takeWhile (fun c => (digitValue radix c).isSome)).filterMap
      (digitValue radix)
    if digits = [] then none
    else
      let value := digits.foldl (fun acc d => acc * radix + d) 0
      some (if negative then -(Int.ofNat value) else Int.ofNat value)

/-- The expression `parseInt(x) || fallback`: `NaN` and zero are falsy. -/
def orDefault (parsed : Option Int) (fallback : Int) : Int :=
  match parsed with
  | none => fallback
  | some n => if n = 0 then fallback else n

/-- The `limit` of `/api/screenshots/recent` (`server.js` 82). -/
def recentLimit (limitParam : Option String) : Int :=
  orDefault (parseInt limitParam) 10

/-- The storage classes in the order SQLite sorts them: `NULL`, then numbers, then
texts, then blobs. -/
def SqlValue.rank : SqlValue → Nat
  | SqlValue.null => 0
  | SqlValue.integer _ => 1
  | SqlValue.real _ => 1
  | SqlValue.text _ => 2
  | SqlValue.blob _ => 3

/-- The numeric value of a stored number; the least value for what is not a number. -/
def SqlValue.numeric : SqlValue → WithBot (WithTop Rat)
  | SqlValue.integer n => (((n : Rat) : WithTop Rat) : WithBot (WithTop Rat))
  | SqlValue.real x => x
  | _ => ⊥

/-- The characters of a stored text; none for what is not a text. -/
def SqlValue.chars : SqlValue → List Char
  | SqlValue.text s => s.toList
  | _ => []

/-- The bytes of a stored blob; none for what is not a blob. -/
def SqlValue.bytes : SqlValue → List Nat
  | SqlValue.blob b => b
  | _ => []

/-- The order in which SQLite compares two stored values: by storage class first, and
within a class numbers by value, texts character by character (the `BINARY` collation)
and blobs byte by byte. Within a class a single one of the three comparisons tells two
values apart. -/
def SqlValue.le (a b : SqlValue) : Prop :=
  a.rank < b.rank ∨
    (a.rank = b.rank ∧ a.numeric ≤ b.numeric ∧ a.chars ≤ b.chars ∧ a.bytes ≤ b.bytes)

instance : DecidableRel SqlValue.le := fun a b => by
  unfold SqlValue.le
  infer_instance

/-- The order of the `created_at` column: `createdLe a b` says that `a` is not created
later than `b`. -/
def createdLe (a b : Screenshot) : Prop :=
  a.created_at.le b.created_at

/-- The order `ORDER BY created_at DESC` puts two records in. -/
def createdDesc (a b : Screenshot) : Prop := createdLe b a

instance : DecidableRel createdLe :=
  fun a b => inferInstanceAs (Decidable (a.created_at.le b.created_at))

instance : DecidableRel createdDesc := fun a b => inferInstanceAs (Decidable (createdLe b a))

instance : IsTotal Screenshot createdDesc :=
  ⟨fun a b => by
    unfold createdDesc createdLe SqlValue.le
    rcases lt_trichotomy a.created_at.rank b.created_at.rank with h | h | h
    · exact Or.inr (Or.inl h)
    · cases ha : a.created_at <;> cases hb : b.created_at <;>
        simp [ha, hb, SqlValue.rank] at h <;>
        simp [SqlValue.rank, SqlValue.numeric, SqlValue.chars, SqlValue.bytes] <;>
        exact le_total _ _
    · exact Or.inl (Or.inl h)⟩

instance : IsTrans Screenshot createdDesc :=
  ⟨fun a b c hab hbc => by
    unfold createdDesc createdLe SqlValue.le at *
    rcases hab with h1 | ⟨h1, n1, c1, b1⟩ <;> rcases hbc with h2 | ⟨h2, n2, c2, b2⟩
    · exact Or.inl (by omega)
    · exact Or.inl (by omega)
    · exact Or.inl (by omega)
    · exact Or.inr ⟨by omega, le_trans n2 n1, le_trans c2 c1, le_trans b2 b1⟩⟩

/-- A number bound to `LIMIT` is accepted when it is an integer of 64 bits, strictly
between `-2^63` and `2^63`; the statement is rejected otherwise. -/
def limitFits (limit : Int) : Prop :=
  -(2 : Int) ^ 63 < limit ∧ limit < (2 : Int) ^ 63

instance (limit : Int) : Decidable (limitFits limit) := by
  unfold limitFits
  infer_instance

/-- What `db.all` hands to its callback: the rows of the answer, or an error. -/
inductive QueryOutcome
  | rows (result : List Screenshot)
  | error (message : String)
  deriving DecidableEq

/-- The statement `SELECT * FROM screenshots ORDER BY created_at DESC LIMIT ?`
(`server.js` 85) with `limit` bound to the parameter, on a database that can be read.
With a limit the engine accepts, the outcome is the start of a listing of all records
in descending order of `created_at`, cut after `limit` records, a negative limit
cutting nothing; among records of equal `created_at` the order is the engine's choice.
With any other limit the statement is rejected and the outcome is an error. -/
def IsRecent (rows : List Screenshot) (limit : Int) (outcome : QueryOutcome) : Prop :=
  match outcome with
  | QueryOutcome.error _ => ¬ limitFits limit
  | QueryOutcome.rows result =>
    limitFits limit ∧
    ∃ sorted : List Screenshot, sorted.Perm rows ∧ sorted.Sorted createdDesc ∧
      result = if limit < 0 then sorted else sorted.take limit.toNat

/-- One possible outcome of the recent-records query: the table sorted with a stable
sort, or the rejection of the limit. -/
def stableRecent (rows : List Screenshot) (limit : Int) : QueryOutcome :=
  if limitFits limit then
    QueryOutcome.rows
      (if limit < 0 then rows.insertionSort createdDesc
        else (rows.insertionSort createdDesc).take limit.toNat)
  else QueryOutcome.error "SQLITE_MISMATCH: datatype mismatch"

/-- What the handler of `/api/screenshots/recent` sends. -/
inductive RecentResponse
  | screenshots (rows : List Screenshot)
  | error (status : Nat) (message : String)
  deriving DecidableEq

/-- The HTTP status of a response; `res.json` without `res.status` answers 200. -/
def RecentResponse.status : RecentResponse → Nat
  | RecentResponse.screenshots _ => 200
  | RecentResponse.error status _ => status

/-- The callback of `db.all` in the handler of `/api/screenshots/recent` (`server.js`
87-93). -/
def recentHandler (outcome : QueryOutcome) : RecentResponse :=
  match outcome with
  | QueryOutcome.error message => RecentResponse.error 500 message
  | QueryOutcome.rows result => RecentResponse.screenshots result

/-- A query parameter is used by `/api/search` when it is truthy: present and not the
empty string. -/
def truthy (param : Option String) : Bool :=
  match param with
  | none => false
  | some s => s != ""

/-- The SQL text and the parameter list built by `/api/search` (`server.js` 99-123) from
the query parameters `query`, `category`, `app` and `days`. -/
def buildSearch (query category app days : Option String) : String × List String :=
  let sql0 := "SELECT * FROM screenshots WHERE 1=1"
  let params0 : List String := []
  let (sql1, params1) :=
    if truthy query then
      (sql0 ++ " AND (ocr_text LIKE ? OR file_name LIKE ? OR window_title LIKE ?)",
        params0 ++ ["%" ++ query.getD "" ++ "%", "%" ++ query.getD "" ++ "%",
          "%" ++ query.getD "" ++ "%"])
    else (sql0, params0)
  let (sql2, params2) :=
    if truthy category then (sql1 ++ " AND category = ?", params1 ++ [category.getD ""])
    else (sql1, params1)
  let (sql3, params3) :=
    if truthy app then (sql2 ++ " AND app_name = ?", params2 ++ [app.getD ""])
    else (sql2, params2)
  let (sql4, params4) :=
    if truthy days then
      (sql3 ++ " AND created_at >= datetime(\"now\", \"-\" || ? || \" days\")",
        params3 ++ [days.getD ""])
    else (sql3, params3)
  (sql4 ++ " ORDER BY created_at DESC LIMIT 50", params4)

/-- The `overview` object of `/api/stats/detailed` (`server.js` 238-245). `totalSize` and
`mostActiveDay` are the constants the handler sends as mock data. -/
structure DetailedOverview where
  totalScreenshots : Nat
  ocrProcessed : Nat
  categorized : Nat
  totalSize : String
  avgPerDay : Rat
  mostActiveDay : String

/-- The `days` of `/api/stats/detailed` (`server.js` 197). -/
def detailedDays (daysParam : Option String) : Int :=
  orDefault (parseInt daysParam) 30

/-- The three overview queries of `/api/stats/detailed` (`server.js` 201-203) and the
object built from them; `Math.round(x * 10) / 10` is taken on exact values. -/
def detailedOverview (daysParam : Option String) (rows : List Screenshot) : DetailedOverview :=
  { totalScreenshots := rows.length
    ocrProcessed := rows.countP (fun r => r.ocr_text.isSome)
    categorized :=
      rows.countP (fun r => r.category.isSome && r.category != some "Uncategorized")
    totalSize := "45.2 MB"
    avgPerDay :=
      ((Int.floor ((rows.length : Rat) / (detailedDays daysParam : Rat) * 10 + 1 / 2) : Int) : Rat) / 10
    mostActiveDay := "Friday" }

/-! ## Settings endpoints (`server.js` 260-297) -/

/-- The text in the `value` column of a settings row, told by what `JSON.parse` makes of
it: a JSON text of some value (`JSON.stringify(value)` is one, and `JSON.parse` gives
the value back), or a text on which `JSON.parse` throws. -/
inductive SettingText
  | json (value : JVal)
  | plain (text : String)

/-- The rows of the `settings` table as pairs of `key` and `value`; `key` is the primary
key (`server.js` 41-44). -/
abbrev SettingsTable := List (String × SettingText)

/-- The statement `INSERT OR REPLACE INTO settings (key, value) VALUES (?, ?)`: a row
with the same key is deleted and the new row is added. -/
def insertOrReplace (key : String) (value : SettingText) (table : SettingsTable) :
    SettingsTable :=
  table.filter (fun row => row.1 ≠ key) ++ [(key, value)]

/-- The own properties of a plain JavaScript object, in creation order. -/
abbrev JsObject := List (String × JVal)

/-- The assignment `object[key] = value` on an object created by `{}`: an own property
is written or created, except under the key `__proto__`, which the object inherits as
an accessor: that assignment changes at most the prototype and creates no own
property. -/
def assignProperty (object : JsObject) (key : String) (value : JVal) : JsObject :=
  if key = "__proto__" then object
  else if object.any (fun p => p.1 == key) then
    object.map (fun p => if p.1 = key then (key, value) else p)
  else object ++ [(key, value)]

/-- The value `GET /api/settings` gives to a row (`server.js` 270-274): the parsed JSON,
or the text itself when it does not parse. -/
def settingValue : SettingText → JVal
  | SettingText.json value => value
  | SettingText.plain text => JVal.str text

/-- What a settings handler sends. -/
inductive SettingsResponse
  | json (body : JsObject)
  | success
  | error (status : Nat) (message : String)

/-- The handler of `GET /api/settings` (`server.js` 261-279). `err` is the error of
`db.all`, if any; `table` holds the rows it returned otherwise. -/
def getSettings (err : Option String) (table : SettingsTable) : SettingsResponse :=
  match err with
  | some message => SettingsResponse.error 500 message
  | none =>
    SettingsResponse.json
      (table.foldl (fun settings row => assignProperty settings row.1 (settingValue row.2)) [])

/-- The property `key` of the object sent by `GET /api/settings`, if the response is an
object that has it. -/
def SettingsResponse.get (response : SettingsResponse) (key : String) : Option JVal :=
  match response with
  | SettingsResponse.json body => body.lookup key
  | _ => none

/-- The writes of `POST /api/settings` (`server.js` 284-288): one `stmt.run` for each
entry of `Object.entries(req.body)`, in order, outside any transaction. `runOk i` tells
whether the `i`-th run was carried out; a run that fails writes nothing and leaves the
runs before it in place. -/
def postSettingsWrites (body : JsObject) (runOk : Nat → Bool) (table : SettingsTable) :
    SettingsTable :=
  body.enum.foldl (fun t entry =>
    if runOk entry.1 then insertOrReplace entry.2.1 (SettingText.json entry.2.2) t else t) table

/-- The response of `POST /api/settings` (`server.js` 290-296), sent from the callback
of `stmt.finalize`: `finalizeErr` is the error given to that callback. No callback is
passed to `stmt.run`, so the failure of a run does not reach this code. -/
def postSettingsResponse (finalizeErr : Option String) : SettingsResponse :=
  match finalizeErr with
  | some message => SettingsResponse.error 500 message
  | none => SettingsResponse.success

/-- The handler of `POST /api/settings` (`server.js` 281-297): the table after the
writes and the response. -/
def postSettings (body : JsObject) (runOk : Nat → Bool) (finalizeErr : Option String)
    (table : SettingsTable) : SettingsTable × SettingsResponse :=
  (postSettingsWrites body runOk table, postSettingsResponse finalizeErr)

/-! ## Inserts into the `screenshots` table (`server.js` 25-37) -/

/-- The constraint `file_path TEXT UNIQUE NOT NULL` (`server.js` 27): no two rows hold
the same path. -/
def uniqueFilePaths (rows : List Screenshot) : Prop :=
  (rows.map (fun r => r.file_path)).Nodup

instance (rows : List Screenshot) : Decidable (uniqueFilePaths rows) := by
  unfold uniqueFilePaths
  infer_instance

/-- The id `AUTOINCREMENT` gives to the next new row: one more than the largest id. -/
def nextId (rows : List Screenshot) : Nat :=
  (rows.map (fun r => r.id)).foldl max 0 + 1

/-- Modelled from the spec: the insert of a record, `upsertRecord(path, attrs)`. The
sources hold the definition of the `screenshots` table and no statement that inserts
into it; the spec describes the insert as update-or-ignore keyed by the file path. A
path already stored is coalesced: the stored record is updated with the attributes of
`record` (`update`) or left as it is, and keeps its id; a new path is stored under the
next id. The id of the record is returned. -/
def upsertRecord (record : Screenshot) (update : Bool) (rows : List Screenshot) :
    List Screenshot × Nat :=
  match rows.find? (fun r => r.file_path = record.file_path) with
  | some stored =>
    (if update then
        rows.map (fun r => if r.file_path = record.file_path then { record with id := r.id } else r)
      else rows,
      stored.id)
  | none => (rows ++ [{ record with id := nextId rows }], nextId rows)

/-- The table after a sequence of inserts, each with its choice of updating or ignoring
on a path already stored. -/
def upsertAll (inserts : List (Screenshot × Bool)) (rows : List Screenshot) :
    List Screenshot :=
  inserts.foldl (fun t i => (upsertRecord i.1 i.2 t).1) rows

/-! ## Settings of the viewer (`SettingsContext.jsx`, `SettingsPanel.jsx`) -/

/-- The value of a setting: a string, a boolean or a number. -/
inductive SettingValue
  | str (s : String)
  | bool (b : Bool)
  | num (q : Rat)
  deriving DecidableEq

/-- The `settings` object of the provider: its own properties in creation order. -/
abbrev Settings := List (String × SettingValue)

/-- The constant `defaultSettings` (`SettingsContext.jsx` 13-25). -/
def defaultSettings : Settings :=
  [("watchPath", SettingValue.str "~/Pictures/Screenshots"),
   ("enableOcr", SettingValue.bool true),
   ("enableRename", SettingValue.bool true),
   ("enableCategorize", SettingValue.bool true),
   ("ocrLanguage", SettingValue.str "eng"),
   ("categoryThreshold", SettingValue.num (3 / 10)),
   ("maxFileSize", SettingValue.num 10),
   ("autoStart", SettingValue.bool false),
   ("notifications", SettingValue.bool true),
   ("dbPath", SettingValue.str "smartshot.db"),
   ("logLevel", SettingValue.str "INFO")]

/-- One property copied by an object spread: it is written over the property of the
same name or added. -/
def defineProperty (object : Settings) (key : String) (value : SettingValue) : Settings :=
  if object.any (fun p => p.1 == key) then
    object.map (fun p => if p.1 = key then (key, value) else p)
  else object ++ [(key, value)]

/-- The object `{ ...prev, ...newSettings }`. -/
def spread (prev newSettings : Settings) : Settings :=
  newSettings.foldl (fun object p => defineProperty object p.1 p.2) prev

/-- The function `updateSettings` (`SettingsContext.jsx` 50-52). -/
def updateSettings (newSettings : Settings) (settings : Settings) : Settings :=
  spread settings newSettings

/-- The function `resetSettings` of the provider (`SettingsContext.jsx` 75-77), which the
panel does not call. -/
def resetSettings (_settings : Settings) : Settings :=
  defaultSettings

/-- The function `handleReset` of the panel (`SettingsPanel.jsx` 23-37); `confirmed` is
the answer to the `confirm` dialogue. -/
def handleReset (confirmed : Bool) (settings : Settings) : Settings :=
  if confirmed then
    updateSettings
      [("watchPath", SettingValue.str "~/Pictures/Screenshots"),
       ("enableOcr", SettingValue.bool true),
       ("enableRename", SettingValue.bool true),
       ("enableCategorize", SettingValue.bool true),
       ("ocrLanguage", SettingValue.str "eng"),
       ("categoryThreshold", SettingValue.num (3 / 10)),
       ("maxFileSize", SettingValue.num 10),
       ("autoStart", SettingValue.bool false),
       ("notifications", SettingValue.bool true)]
      settings
  else settings

/-! ## Specification predicates -/

/-- The specification of a qualifying name: the name is some stem, a dot, and an
extension that is one of `png`, `jpg`, `jpeg`, `gif`, `bmp` once its letters are put in
lower case. -/
def spec_hasImageExtension (fileName : String) : Prop :=
  ∃ stem ext : List Char, fileName.toList = stem ++ '.' :: ext ∧
    ext.map Char.toLower ∈
      ["png".toList, "jpg".toList, "jpeg".toList, "gif".toList, "bmp".toList]

/-- The specification of a record with extracted text: the text is present and is not
the empty string. -/
def spec_hasText (r : Screenshot) : Bool :=
  match r.ocr_text with
  | none => false
  | some text => text != ""

/-- The specification of a categorised record: the category is present and is not the
default label. -/
def spec_isCategorized (r : Screenshot) : Bool :=
  match r.category with
  | none => false
  | some label => label != "Uncategorized"

/-- A record with the given category and application name, every other nullable column
being `NULL`. -/
def sampleRow (id : Nat) (category app_name : Option String) : Screenshot :=
  { id := id, file_path := "/shots/" ++ toString id ++ ".png",
    file_name := toString id ++ ".png", file_size := 1024, file_hash := none,
    category := category, app_name := app_name, window_title := none,
    created_at := SqlValue.null, ocr_text := none, ocr_confidence := none }

/-- Six records, each in a category of its own. -/
def sixCategories : List Screenshot :=
  [sampleRow 1 (some "a") none, sampleRow 2 (some "b") none, sampleRow 3 (some "c") none,
   sampleRow 4 (some "d") none, sampleRow 5 (some "e") none, sampleRow 6 (some "f") none]

/-- Two records whose categories `b` and `a` each form a group of one. -/
def twoTied : List Screenshot :=
  [sampleRow 1 (some "b") none, sampleRow 2 (some "a") none]

/-- A record created at the given time. -/
def recordAt (id : Nat) (created_at : String) : Screenshot :=
  { sampleRow id none none with created_at := SqlValue.text created_at }

/-- Two records whose `created_at` holds the numbers 9 and 10. -/
def numberedRecords : List Screenshot :=
  [{ sampleRow 1 none none with created_at := SqlValue.integer 9 },
   { sampleRow 2 none none with created_at := SqlValue.integer 10 }]

/-- The record a processing service would store for the file `/shots/a.png`. -/
def reportedRecord : Screenshot :=
  { sampleRow 1 none none with file_path := "/shots/a.png", file_name := "a.png" }

/-- Three records created at times T1 < T2 < T3, stored in that order. -/
def threeRecords : List Screenshot :=
  [recordAt 1 "2024-05-01 10:00:00", recordAt 2 "2024-05-02 10:00:00",
   recordAt 3 "2024-05-03 10:00:00"]

/-- Stored settings in which the database path and the log level were changed. -/
def customSettings : Settings :=
  updateSettings [("dbPath", SettingValue.str "archive.db"),
    ("logLevel", SettingValue.str "DEBUG"), ("maxFileSize", SettingValue.num 50)]
    defaultSettings

/-- The settings batch `{a: 1, b: "x"}`. -/
def sampleBatch : JsObject := [("a", JVal.num 1), ("b", JVal.str "x")]

/-- A settings batch whose one key is `__proto__`, the body `{"__proto__": 1}`. -/
def protoBatch : JsObject := [("__proto__", JVal.num 1)]

/-! ## Properties of the server -/

/-- The sockets after the loop of `broadcast` over a duplicate-free client list: a
listed socket that is open has the frame appended, every other socket is untouched. -/
theorem foldl_send_apply (frame : Frame) (l : List Nat) (heap : Nat → WebSocket)
    (hl : l.Nodup) (c : Nat) :
    (l.foldl (fun heap client =>
      if (heap client).readyState = ReadyState.OPEN then
        Function.update heap client ((heap client).send frame)
      else heap) heap) c
      = if c ∈ l ∧ (heap c).readyState = ReadyState.OPEN then
          ⟨ReadyState.OPEN, (heap c).sent ++ [frame]⟩
        else heap c := by
  induction l generalizing heap with
  | nil => simp
  | cons a t ih =>
    have hat : a ∉ t := (List.nodup_cons.mp hl).1
    have ht : t.Nodup := (List.nodup_cons.mp hl).2
    rw [List.foldl_cons, ih _ ht]
    by_cases hopen : (heap a).readyState = ReadyState.OPEN
    · by_cases hca : c = a
      · subst hca
        simp [hopen, hat, WebSocket.send]
      · simp [hopen, hca, Function.update_noteq hca]
    · by_cases hca : c = a
      · subst hca
        simp [hopen, hat]
      · simp [hopen, hca]

/-- The loop of `broadcast` never writes to a socket that is not open. -/
theorem foldl_send_skip (frame : Frame) (l : List Nat) (heap : Nat → WebSocket) (c : Nat)
    (hc : (heap c).readyState ≠ ReadyState.OPEN) :
    (l.foldl (fun heap client =>
      if (heap client).readyState = ReadyState.OPEN then
        Function.update heap client ((heap client).send frame)
      else heap) heap) c = heap c := by
  induction l generalizing heap with
  | nil => simp
  | cons a t ih =>
    rw [List.foldl_cons]
    by_cases hopen : (heap a).readyState = ReadyState.OPEN
    · have hca : c ≠ a := fun h => hc (h ▸ hopen)
      rw [if_pos hopen, ih _ (by simpa [Function.update_noteq hca] using hc)]
      exact Function.update_noteq hca _ _
    · rw [if_neg hopen, ih _ hc]

/-- Adding to the set keeps it free of duplicates. -/
theorem setAdd_nodup (x : Nat) (s : List Nat) (h : s.Nodup) : (setAdd x s).Nodup := by
  unfold setAdd
  split
  · exact h
  · rename_i hx
    exact List.Nodup.append h (List.nodup_singleton x) (by simpa using hx)

/-- Deleting from the set keeps it free of duplicates. -/
theorem setDelete_nodup (x : Nat) (s : List Nat) (h : s.Nodup) : (setDelete x s).Nodup :=
  List.Nodup.filter _ h

/-- The function `broadcast` does not touch the client set. -/
theorem broadcast_clients (message : Message) (s : Server) :
    (broadcast message s).clients = s.clients := rfl

/-- Every turn of the event loop keeps `clients` free of duplicates. -/
theorem step_clients_nodup (s : Server) (e : Event) (h : s.clients.Nodup) :
    (step s e).clients.Nodup := by
  cases e with
  | connection ws => exact setAdd_nodup _ _ h
  | transport ws st => exact h
  | close ws => exact setDelete_nodup _ _ h
  | add filePath clock =>
    simp only [step, watcherOnAdd]
    split
    · exact h
    · exact h
  | statsSettled i ok =>
    simp only [step]
    split
    · exact h
    · rename_i k _
      cases ok <;> cases k <;> exact h

/-- In every execution from start-up, `clients` is free of duplicates. -/
theorem run_clients_nodup (rows : List Screenshot) (trace : List Event) :
    (run (Server.start rows) trace).clients.Nodup := by
  have key : ∀ (t : List Event) (s : Server), s.clients.Nodup → (run s t).clients.Nodup := by
    intro t
    induction t with
    | nil => intro s h; exact h
    | cons e t ih => intro s h; exact ih _ (step_clients_nodup s e h)
  exact key trace _ List.nodup_nil

/-- C1 (evaluation at the failing execution): a viewer connects and joins `clients`, the
watcher then reports `a.png`, and the statistics query of the connection handler
completes last. The only call of `broadcast` is the `new_screenshot` one, made while the
viewer is already a client, and the viewer is sent that frame before the `stats_update`
of its connection handler. -/
theorem broadcast_overtakes_initial_stats :
    0 ∈ (run (Server.start []) (raceTrace.take 1)).clients ∧
    (run (Server.start []) raceTrace).broadcasts =
      [Message.new_screenshot (screenshotProcessed "a.png" sampleClock)] ∧
    ((run (Server.start []) raceTrace).sockets 0).sent =
      [Frame.stringify (Message.new_screenshot (screenshotProcessed "a.png" sampleClock)),
       Frame.stringify (Message.stats_update (getStats []))] := by
  decide

/-- C2: for a created file whose base name passes the image test, the `add` handler
makes exactly one call of `broadcast`, with the `new_screenshot` message, and leaves
exactly one statistics query pending; when that query succeeds, in whatever later state,
exactly one further call of `broadcast` is made, with a `stats_update` carrying the
`getStats` result read at that time. Run back to back, the two events extend the log of
broadcast calls by `new_screenshot` followed by `stats_update`, and by nothing else. -/
theorem watcher_add_broadcasts_screenshot_then_stats (s : Server) (filePath : String)
    (clock : Clock) (h : isImageName (basename filePath) = true) :
    (watcherOnAdd filePath clock s).broadcasts =
      s.broadcasts ++ [Message.new_screenshot (screenshotProcessed (basename filePath) clock)] ∧
    (watcherOnAdd filePath clock s).pending = s.pending ++ [Continuation.broadcastStats] ∧
    (∀ (s2 : Server) (i : Nat), s2.pending[i]? = some Continuation.broadcastStats →
      (step s2 (Event.statsSettled i true)).broadcasts =
        s2.broadcasts ++ [Message.stats_update (getStats s2.db)]) ∧
    (run s [Event.add filePath clock, Event.statsSettled s.pending.length true]).broadcasts =
      s.broadcasts ++ [Message.new_screenshot (screenshotProcessed (basename filePath) clock),
        Message.stats_update (getStats s.db)] := by
  refine ⟨?_, ?_, ?_, ?_⟩
  · simp [watcherOnAdd, h, broadcast]
  · simp [watcherOnAdd, h, broadcast]
  · intro s2 i hi
    simp [step, hi, settle, broadcast]
  · simp [run, step, watcherOnAdd, h, broadcast, settle]

/-- C2, witness: the file `/home/u/Pictures/Screenshots/a.png` reported to a server just
started on an empty table. -/
theorem watcher_add_broadcasts_screenshot_then_stats_witness :
    (run (Server.start [])
      [Event.add "/home/u/Pictures/Screenshots/a.png" sampleClock,
       Event.statsSettled (Server.start []).pending.length true]).broadcasts =
      (Server.start []).broadcasts ++
        [Message.new_screenshot
          (screenshotProcessed (basename "/home/u/Pictures/Screenshots/a.png") sampleClock),
         Message.stats_update (getStats (Server.start []).db)] :=
  (watcher_add_broadcasts_screenshot_then_stats (Server.start [])
    "/home/u/Pictures/Screenshots/a.png" sampleClock (by decide)).2.2.2

/-- C3: `broadcast(message)` over a client set (a set: no connection is listed twice)
writes the serialised message exactly once to every registered connection whose
`readyState` is `OPEN`, whatever the state of the other connections, writes nothing to a
registered connection that is not open, and changes no `readyState`. -/
theorem broadcast_delivers_once_to_open (s : Server) (message : Message) (c : Nat)
    (hset : s.clients.Nodup) (hc : c ∈ s.clients) :
    ((broadcast message s).sockets c).readyState = (s.sockets c).readyState ∧
    ((s.sockets c).readyState = ReadyState.OPEN →
      ((broadcast message s).sockets c).sent =
        (s.sockets c).sent ++ [Frame.stringify message]) ∧
    ((s.sockets c).readyState ≠ ReadyState.OPEN →
      ((broadcast message s).sockets c).sent = (s.sockets c).sent) := by
  have key := foldl_send_apply (Frame.stringify message) s.clients s.sockets hset c
  simp only [hc, true_and] at key
  refine ⟨?_, ?_, ?_⟩
  · show (List.foldl _ s.sockets s.clients c).readyState = _
    rw [key]
    split
    · rename_i hopen
      exact hopen.symm
    · rfl
  · intro hopen
    show (List.foldl _ s.sockets s.clients c).sent = _
    rw [key, if_pos hopen]
  · intro hclosed
    show (List.foldl _ s.sockets s.clients c).sent = _
    rw [key, if_neg hclosed]

/-- C3, witness: of three registered viewers the second is closed; the third still gets
the frame, exactly once. -/
theorem broadcast_delivers_once_to_open_witness :
    oneClosedServer.clients = [0, 1, 2] ∧
    (oneClosedServer.sockets 1).readyState = ReadyState.CLOSED ∧
    (oneClosedServer.sockets 2).readyState = ReadyState.OPEN ∧
    ((broadcast sampleStatsUpdate oneClosedServer).sockets 2).sent =
      (oneClosedServer.sockets 2).sent ++ [Frame.stringify sampleStatsUpdate] :=
  ⟨by decide, by decide, by decide,
    (broadcast_delivers_once_to_open oneClosedServer sampleStatsUpdate 2
      (by decide) (by decide)).2.1 (by decide)⟩

/-- C4, as stated, fails: with three registered viewers of which the second has a closed
transport, the closed one is still a member of `clients` after `broadcast` returns. -/
theorem broadcast_keeps_closed_client :
    1 ∈ oneClosedServer.clients ∧
    (oneClosedServer.sockets 1).readyState = ReadyState.CLOSED ∧
    1 ∈ (broadcast sampleStatsUpdate oneClosedServer).clients := by
  decide

/-- C4, amended: `broadcast(message)` leaves the client set as it was; a connection
whose transport is not open is skipped, nothing being written to it, and it leaves the
set through its own close handler, after which it is not a member. -/
theorem broadcast_skips_closed_close_handler_removes (s : Server) (message : Message)
    (c : Nat) (hclosed : (s.sockets c).readyState ≠ ReadyState.OPEN) :
    (broadcast message s).clients = s.clients ∧
    (broadcast message s).sockets c = s.sockets c ∧
    c ∉ (onClose c (broadcast message s)).clients := by
  refine ⟨rfl, ?_, ?_⟩
  · exact foldl_send_skip (Frame.stringify message) s.clients s.sockets c hclosed
  · simp [onClose, setDelete]

/-- C4 amended, witness: the closed second viewer of three. -/
theorem broadcast_skips_closed_close_handler_removes_witness :
    (broadcast sampleStatsUpdate oneClosedServer).clients = oneClosedServer.clients ∧
    (broadcast sampleStatsUpdate oneClosedServer).sockets 1 = oneClosedServer.sockets 1 ∧
    1 ∉ (onClose 1 (broadcast sampleStatsUpdate oneClosedServer)).clients :=
  broadcast_skips_closed_close_handler_removes oneClosedServer sampleStatsUpdate 1
    (by decide)

/-- C5: running the close handler of a connection twice leaves the same client set as
running it once; afterwards the connection is not a member, and every other connection
is a member exactly when it was one before. -/
theorem unregister_idempotent (s : Server) (c : Nat) :
    (onClose c (onClose c s)).clients = (onClose c s).clients ∧
    c ∉ (onClose c s).clients ∧
    ∀ d : Nat, d ∈ (onClose c s).clients ↔ (d ∈ s.clients ∧ d ≠ c) := by
  refine ⟨?_, ?_, ?_⟩
  · simp [onClose, setDelete, List.filter_filter]
  · simp [onClose, setDelete]
  · intro d
    simp [onClose, setDelete]

/-! ## Properties of the client -/

/-- A `case` label matches exactly the string it spells. -/
theorem isStr_iff (t : JVal) (label : String) : t.isStr label = true ↔ t = JVal.str label := by
  cases t <;> simp [JVal.isStr]

/-- Reading `payload` succeeds wherever reading `type` did. -/
theorem prop_payload_ok (data t : JVal) (h : data.prop "type" = Except.ok t) :
    ∃ p, data.prop "payload" = Except.ok p := by
  cases data <;> simp_all [JVal.prop]

/-- An activity message puts its payload in front of the first nine entries of the
activity list. -/
theorem handle_activity (data : JVal) (c : Client) (h : isActivityMessage data = true) :
    ws_onmessage (Except.ok data) c =
      { c with recentActivity :=
          ((data.prop "payload").toOption).getD JVal.undefined :: c.recentActivity.take 9 } := by
  unfold isActivityMessage at h
  cases ht : data.prop "type" with
  | error e => simp [ht] at h
  | ok t =>
    obtain ⟨p, hp⟩ := prop_payload_ok data t ht
    simp only [ht, Bool.or_eq_true, isStr_iff] at h
    rcases h with h | h
    · subst h
      simp [ws_onmessage, handleWebSocketMessage, ht, hp, JVal.isStr, Except.map,
        Except.toOption]
    · subst h
      simp [ws_onmessage, handleWebSocketMessage, ht, hp, JVal.isStr, Except.map,
        Except.toOption]

/-- A message that is not an activity message leaves the activity list as it was. -/
theorem handle_other (data : JVal) (c : Client) (h : isActivityMessage data = false) :
    (ws_onmessage (Except.ok data) c).recentActivity = c.recentActivity := by
  unfold isActivityMessage at h
  cases ht : data.prop "type" with
  | error e => simp [ws_onmessage, handleWebSocketMessage, ht]
  | ok t =>
    obtain ⟨p, hp⟩ := prop_payload_ok data t ht
    simp only [ht, Bool.or_eq_false_iff] at h
    by_cases hs : t.isStr "stats_update" = true <;>
      simp [ws_onmessage, handleWebSocketMessage, ht, hp, h.1, h.2, hs, Except.map]

/-- Receiving one more message after `msgs`. -/
theorem receiveAll_append (msgs : List JVal) (data : JVal) (c : Client) :
    receiveAll (msgs ++ [data]) c = ws_onmessage (Except.ok data) (receiveAll msgs c) := by
  simp [receiveAll, List.foldl_append]

/-- The timers of the client are untouched by an incoming message. -/
theorem ws_onmessage_timers (parsed : Except String JVal) (c : Client) :
    (ws_onmessage parsed c).timers = c.timers := by
  cases parsed with
  | error e => rfl
  | ok data =>
    cases ht : data.prop "type" with
    | error e => simp [ws_onmessage, handleWebSocketMessage, ht]
    | ok t =>
      obtain ⟨p, hp⟩ := prop_payload_ok data t ht
      simp only [ws_onmessage, handleWebSocketMessage, ht, hp, Except.map]
      split_ifs <;> rfl

/-- Every turn of the client event loop keeps all pending timers at 5000 ms. -/
theorem clientStep_timers (c : Client) (e : ClientEvent)
    (h : ∀ t ∈ c.timers, t = (⟨Callback.connectWebSocket, 5000⟩ : Timer)) :
    ∀ t ∈ (clientStep c e).timers, t = (⟨Callback.connectWebSocket, 5000⟩ : Timer) := by
  cases e with
  | onopen ws => exact h
  | onmessage parsed =>
    simp only [clientStep, ws_onmessage_timers]
    exact h
  | onclose =>
    intro t ht
    simp only [clientStep, ws_onclose, List.mem_append, List.mem_singleton] at ht
    rcases ht with ht | ht
    · exact h t ht
    · exact ht
  | onerror => exact h
  | timeout i constructed =>
    simp only [clientStep]
    split
    · exact h
    · rename_i t0 _
      have hsub : ∀ t ∈ c.timers.eraseIdx i, t = (⟨Callback.connectWebSocket, 5000⟩ : Timer) :=
        fun t ht => h t ((List.eraseIdx_sublist c.timers i).subset ht)
      cases t0 with
      | mk cb d =>
        cases cb
        cases constructed
        · intro t ht
          simp [connectWebSocket] at ht
          rcases ht with ht | ht
          · exact hsub t ht
          · exact ht
        · intro t ht
          simp [connectWebSocket] at ht
          exact hsub t ht

/-- In every execution of the client from mounting, every pending timer is a reconnect
with a delay of 5000 ms. -/
theorem clientRun_timers (constructed : Bool) (trace : List ClientEvent) :
    ∀ t ∈ (clientRun (Client.mount constructed) trace).timers,
      t = (⟨Callback.connectWebSocket, 5000⟩ : Timer) := by
  have key : ∀ (tr : List ClientEvent) (c : Client),
      (∀ t ∈ c.timers, t = (⟨Callback.connectWebSocket, 5000⟩ : Timer)) →
      ∀ t ∈ (clientRun c tr).timers, t = (⟨Callback.connectWebSocket, 5000⟩ : Timer) := by
    intro tr
    induction tr with
    | nil => intro c h; exact h
    | cons e tr ih => intro c h; exact ih _ (clientStep_timers c e h)
  apply key
  cases constructed <;> simp [Client.mount, connectWebSocket]

/-- C6: for every finite sequence of incoming messages handled from an empty activity
list, the list holds at most 10 entries and is the list of payloads of the
`new_screenshot` / `activity_update` messages received, newest first, cut to the ten
most recent. -/
theorem recentActivity_bounded_newest_first (msgs : List JVal) (c : Client)
    (hempty : c.recentActivity = []) :
    (receiveAll msgs c).recentActivity.length ≤ 10 ∧
    (receiveAll msgs c).recentActivity = spec_recentActivity msgs := by
  have key : (receiveAll msgs c).recentActivity = spec_recentActivity msgs := by
    induction msgs using List.reverseRecOn with
    | nil => simp [receiveAll, spec_recentActivity, hempty]
    | append_singleton msgs data ih =>
      rw [receiveAll_append]
      cases hact : isActivityMessage data with
      | false =>
        rw [handle_other data _ hact, ih]
        simp [spec_recentActivity, List.filter_append, hact]
      | true =>
        rw [handle_activity data _ hact]
        simp only [ih]
        simp [spec_recentActivity, List.filter_append, hact, List.take_take]
  refine ⟨?_, key⟩
  rw [key]
  simp [spec_recentActivity, List.length_take]

/-- C6, witness: a burst of twelve messages received by a freshly mounted client. -/
theorem recentActivity_bounded_newest_first_witness :
    (receiveAll burst (Client.mount true)).recentActivity.length ≤ 10 ∧
    (receiveAll burst (Client.mount true)).recentActivity = spec_recentActivity burst :=
  recentActivity_bounded_newest_first burst (Client.mount true) rfl

/-- C7: handling a message whose type is `new_screenshot` or `activity_update` and whose
payload is `p` succeeds and turns the activity list `L` into `p` followed by the first 9
entries of `L`, the same for both types; when `L` holds 10 entries, those 9 are `L`
without its last (oldest) entry and the new list again holds 10. -/
theorem activity_message_prepends_and_evicts (c : Client) (data t p : JVal)
    (ht : data.prop "type" = Except.ok t)
    (hkind : t = JVal.str "new_screenshot" ∨ t = JVal.str "activity_update")
    (hp : data.prop "payload" = Except.ok p) :
    handleWebSocketMessage data c =
      Except.ok { c with recentActivity := p :: c.recentActivity.take 9 } ∧
    (c.recentActivity.length = 10 →
      c.recentActivity.take 9 = c.recentActivity.dropLast ∧
      (p :: c.recentActivity.take 9).length = 10) := by
  refine ⟨?_, ?_⟩
  · rcases hkind with h | h
    · subst h
      simp [handleWebSocketMessage, ht, hp, JVal.isStr, Except.map]
    · subst h
      simp [handleWebSocketMessage, ht, hp, JVal.isStr, Except.map]
  · intro hlen
    refine ⟨?_, ?_⟩
    · rw [List.dropLast_eq_take, hlen]
    · simp [List.length_take, hlen]

/-- C7, witness: an `activity_update` arriving at a client whose list is full. -/
theorem activity_message_prepends_and_evicts_witness :
    handleWebSocketMessage sampleActivityUpdate fullClient =
      Except.ok { fullClient with
        recentActivity := JVal.str "renamed" :: fullClient.recentActivity.take 9 } ∧
    (fullClient.recentActivity.length = 10 →
      fullClient.recentActivity.take 9 = fullClient.recentActivity.dropLast ∧
      (JVal.str "renamed" :: fullClient.recentActivity.take 9).length = 10) :=
  activity_message_prepends_and_evicts fullClient sampleActivityUpdate
    (JVal.str "activity_update") (JVal.str "renamed") rfl (Or.inr rfl) rfl

/-- C8: handling a `stats_update` message with payload `p` succeeds and makes the local
snapshot exactly `p`; the outcome is the same whatever the prior snapshot was. -/
theorem stats_update_replaces_snapshot (c : Client) (data p : JVal)
    (ht : data.prop "type" = Except.ok (JVal.str "stats_update"))
    (hp : data.prop "payload" = Except.ok p) :
    handleWebSocketMessage data c = Except.ok { c with stats := p } ∧
    ∀ prior : JVal,
      handleWebSocketMessage data { c with stats := prior } = Except.ok { c with stats := p } := by
  refine ⟨?_, ?_⟩
  · simp [handleWebSocketMessage, ht, hp, JVal.isStr, Except.map]
  · intro prior
    simp [handleWebSocketMessage, ht, hp, JVal.isStr, Except.map]

/-- C8, witness: a `stats_update` arriving at a client that holds activity entries. -/
theorem stats_update_replaces_snapshot_witness :
    handleWebSocketMessage sampleStatsData fullClient =
      Except.ok { fullClient with
        stats := JVal.obj [("totalScreenshots", JVal.num 3), ("ocrProcessed", JVal.num 2),
          ("categorized", JVal.num 1), ("categories", JVal.num 1)] } :=
  (stats_update_replaces_snapshot fullClient sampleStatsData _ rfl rfl).1

/-- C9: when `data.type` can be read and is none of `stats_update`, `new_screenshot`,
`activity_update`, `handleWebSocketMessage` returns normally and the client state,
snapshot and activity list included, is unchanged. -/
theorem unknown_type_ignored (c : Client) (data t : JVal)
    (ht : data.prop "type" = Except.ok t)
    (h1 : t ≠ JVal.str "stats_update") (h2 : t ≠ JVal.str "new_screenshot")
    (h3 : t ≠ JVal.str "activity_update") :
    handleWebSocketMessage data c = Except.ok c := by
  have e1 : t.isStr "stats_update" = false := by
    rw [← Bool.not_eq_true, isStr_iff]; exact h1
  have e2 : t.isStr "new_screenshot" = false := by
    rw [← Bool.not_eq_true, isStr_iff]; exact h2
  have e3 : t.isStr "activity_update" = false := by
    rw [← Bool.not_eq_true, isStr_iff]; exact h3
  simp [handleWebSocketMessage, ht, e1, e2, e3]

/-- C9, witness: a message of type `ping`. -/
theorem unknown_type_ignored_witness :
    handleWebSocketMessage sampleUnknown fullClient = Except.ok fullClient :=
  unknown_type_ignored fullClient sampleUnknown (JVal.str "ping") rfl
    (by simp) (by simp) (by simp)

/-- C10: the close handler of the client, in every state and so at every attempt
number, marks the client disconnected and schedules exactly one timer, a reconnect
after 5000 ms, making no attempt itself; in every execution from mounting every pending
timer is a reconnect after 5000 ms; and a pending timer that fires always starts a new
attempt, however many were made before. -/
theorem close_schedules_one_reconnect_after_5000 (c : Client) :
    (ws_onclose c).isConnected = false ∧
    (ws_onclose c).socket = none ∧
    (ws_onclose c).timers = c.timers ++ [⟨Callback.connectWebSocket, 5000⟩] ∧
    (ws_onclose c).created = c.created ∧
    (∀ (constructed : Bool) (trace : List ClientEvent),
      ∀ t ∈ (clientRun (Client.mount constructed) trace).timers,
        t = (⟨Callback.connectWebSocket, 5000⟩ : Timer)) ∧
    (∀ i : Nat, i < c.timers.length →
      (clientStep c (ClientEvent.timeout i true)).created = c.created + 1 ∧
      (clientStep c (ClientEvent.timeout i true)).timers = c.timers.eraseIdx i) := by
  refine ⟨rfl, rfl, rfl, rfl, clientRun_timers, ?_⟩
  intro i hi
  have hget : c.timers[i]? = some c.timers[i] := List.getElem?_eq_getElem hi
  simp only [clientStep, hget]
  cases hcb : (c.timers[i]).callback
  simp [connectWebSocket]

/-- C10, witness: the first socket of a mounted client closes, and the timer then fires. -/
theorem close_schedules_one_reconnect_after_5000_witness :
    (ws_onclose (Client.mount true)).timers = [⟨Callback.connectWebSocket, 5000⟩] ∧
    (clientStep (ws_onclose (Client.mount true)) (ClientEvent.timeout 0 true)).created = 2 ∧
    (clientStep (ws_onclose (Client.mount true)) (ClientEvent.timeout 0 true)).timers = [] :=
  ⟨(close_schedules_one_reconnect_after_5000 (Client.mount true)).2.2.1,
    ((close_schedules_one_reconnect_after_5000 (ws_onclose (Client.mount true))).2.2.2.2.2
      0 (by decide)).1,
    ((close_schedules_one_reconnect_after_5000 (ws_onclose (Client.mount true))).2.2.2.2.2
      0 (by decide)).2⟩


/-! ## Properties of the watcher filter and of the statistics -/

/-- Lower-casing yields a dot only from a dot. -/
theorem toLower_eq_dot (c : Char) : c.toLower = '.' ↔ c = '.' := by
  constructor
  · intro h
    unfold Char.toLower at h
    by_cases hc : c.toNat ≥ 65 ∧ c.toNat ≤ 90
    · exfalso
      simp only [hc, and_self, if_true] at h
      obtain ⟨h1, h2⟩ := hc
      generalize c.toNat = n at h h1 h2
      interval_cases n <;> revert h <;> decide
    · simpa [hc] using h
  · intro h
    subst h
    decide

/-- The regular expression test is the specification of a qualifying name. -/
theorem isImageName_iff (fileName : String) :
    isImageName fileName = true ↔ spec_hasImageExtension fileName := by
  unfold isImageName spec_hasImageExtension imageExtensions
  simp only [List.any_eq_true, List.isSuffixOf_iff_suffix]
  constructor
  · rintro ⟨e, he, t, ht⟩
    obtain ⟨l1, l2, hl, -, h2⟩ := List.map_eq_append_iff.mp ht.symm
    obtain ⟨c, ext, hc, hdot, hext⟩ := List.map_eq_cons_iff.mp h2
    rw [toLower_eq_dot] at hdot
    subst hdot hc
    refine ⟨l1, ext, hl, ?_⟩
    rw [hext]
    simp only [List.mem_cons, List.mem_singleton, List.not_mem_nil, or_false] at he ⊢
    rcases he with h | h | h | h | h <;> simp [h]
  · rintro ⟨stem, ext, hl, hext⟩
    simp only [List.mem_cons, List.mem_singleton, List.not_mem_nil, or_false] at hext
    have hsuf : ∀ e : String, ext.map Char.toLower = e.toList →
        ('.' :: e.toList) <:+ fileName.toList.map Char.toLower := by
      intro e he
      refine ⟨stem.map Char.toLower, ?_⟩
      rw [hl, List.map_append, List.map_cons, he]
      congr 2
    rcases hext with h | h | h | h | h
    · exact ⟨"png", by simp, hsuf _ h⟩
    · exact ⟨"jpg", by simp, hsuf _ h⟩
    · exact ⟨"jpeg", by simp, hsuf _ h⟩
    · exact ⟨"gif", by simp, hsuf _ h⟩
    · exact ⟨"bmp", by simp, hsuf _ h⟩


/-- C11: the `add` handler emits events exactly for a created file whose base name is a
stem, a dot and one of the extensions `png`, `jpg`, `jpeg`, `gif`, `bmp` in any letter
case: for such a name the `new_screenshot` broadcast is made, and for any other base
name the server state is left as it was, so no broadcast is made and no statistics
query is started. -/
theorem watcher_add_emits_iff_image_extension (s : Server) (filePath : String)
    (clock : Clock) :
    ((watcherOnAdd filePath clock s).broadcasts ≠ s.broadcasts ↔
      spec_hasImageExtension (basename filePath)) ∧
    (spec_hasImageExtension (basename filePath) →
      (watcherOnAdd filePath clock s).broadcasts = s.broadcasts ++
        [Message.new_screenshot (screenshotProcessed (basename filePath) clock)]) ∧
    (¬ spec_hasImageExtension (basename filePath) → watcherOnAdd filePath clock s = s) := by
  rw [← isImageName_iff]
  cases h : isImageName (basename filePath) <;> simp [watcherOnAdd, h, broadcast]

/-- C11, witness: `IMG_1.JPG` is announced, `notes.txt` is not. -/
theorem watcher_add_emits_iff_image_extension_witness :
    (watcherOnAdd "/shots/IMG_1.JPG" sampleClock (Server.start [])).broadcasts =
      (Server.start []).broadcasts ++
        [Message.new_screenshot (screenshotProcessed (basename "/shots/IMG_1.JPG") sampleClock)] ∧
    watcherOnAdd "/shots/notes.txt" sampleClock (Server.start []) = Server.start [] :=
  ⟨(watcher_add_emits_iff_image_extension (Server.start []) "/shots/IMG_1.JPG"
      sampleClock).2.1 ((isImageName_iff _).mp (by decide)),
    (watcher_add_emits_iff_image_extension (Server.start []) "/shots/notes.txt"
      sampleClock).2.2 (fun h => absurd ((isImageName_iff _).mpr h) (by decide))⟩

/-- No turn of the event loop writes the `screenshots` table. -/
theorem step_db (s : Server) (e : Event) : (step s e).db = s.db := by
  cases e with
  | connection ws => rfl
  | transport ws st => rfl
  | close ws => rfl
  | add filePath clock =>
    simp only [step, watcherOnAdd]
    split <;> rfl
  | statsSettled i ok =>
    simp only [step]
    split
    · rfl
    · rename_i k _
      cases ok <;> cases k <;> rfl

/-- No execution of the server writes the `screenshots` table. -/
theorem run_db (s : Server) (trace : List Event) : (run s trace).db = s.db := by
  induction trace generalizing s with
  | nil => rfl
  | cons e rest ih =>
    show (run (step s e) rest).db = s.db
    rw [ih, step_db]

/-- C12, as stated, fails: the server starts on an empty table and the watcher reports
`/shots/a.png`; the `stats_update` broadcast that follows carries the total 0 and the
table is still empty afterwards, no record having been inserted, whereas the table
holding the record of the file would count 1. -/
theorem stats_update_after_add_counts_no_insert :
    (run (Server.start [])
      [Event.add "/shots/a.png" sampleClock, Event.statsSettled 0 true]).broadcasts =
      [Message.new_screenshot (screenshotProcessed "a.png" sampleClock),
       Message.stats_update ⟨0, 0, 0, 0⟩] ∧
    (run (Server.start [])
      [Event.add "/shots/a.png" sampleClock, Event.statsSettled 0 true]).db = [] ∧
    (upsertRecord reportedRecord false []).1.length = 1 ∧
    (getStats (run (Server.start [])
      [Event.add "/shots/a.png" sampleClock, Event.statsSettled 0 true]).db).totalScreenshots ≠
      (upsertRecord reportedRecord false []).1.length := by
  decide

/-- C12, amended: the `totalScreenshots` of `getStats` is the number of records in the
table; the server inserts no record, no execution changing the table; so the
`stats_update` broadcast when the statistics query of the `add` handler is answered,
after whatever events, carries as total the number of records the table held before. -/
theorem total_is_count_of_unwritten_table (s : Server) (trace : List Event) (i : Nat)
    (hpending : (run s trace).pending[i]? = some Continuation.broadcastStats) :
    (∀ rows : List Screenshot, (getStats rows).totalScreenshots = rows.length) ∧
    (run s trace).db = s.db ∧
    ∃ stats : Stats,
      (step (run s trace) (Event.statsSettled i true)).broadcasts =
        (run s trace).broadcasts ++ [Message.stats_update stats] ∧
      stats.totalScreenshots = s.db.length := by
  refine ⟨fun rows => rfl, run_db s trace, getStats (run s trace).db, ?_, ?_⟩
  · simp [step, hpending, settle, broadcast]
  · rw [run_db]
    rfl

/-- C12 amended, witness: the server starts on an empty table and the watcher reports
`/shots/a.png`; the total broadcast is 0, the number of records of the empty table. -/
theorem total_is_count_of_unwritten_table_witness :
    (run (Server.start []) [Event.add "/shots/a.png" sampleClock]).db = (Server.start []).db ∧
    ∃ stats : Stats,
      (step (run (Server.start []) [Event.add "/shots/a.png" sampleClock])
        (Event.statsSettled 0 true)).broadcasts =
        (run (Server.start []) [Event.add "/shots/a.png" sampleClock]).broadcasts ++
          [Message.stats_update stats] ∧
      stats.totalScreenshots = (Server.start []).db.length :=
  (total_is_count_of_unwritten_table (Server.start [])
    [Event.add "/shots/a.png" sampleClock] 0 (by decide)).2

/-- C13: on an empty table `getStats` returns 0 for `totalScreenshots`, `ocrProcessed`,
`categorized` and `categories`; its four queries are counts and divide nothing. A viewer
connecting to a server with an empty table is sent exactly these zeros. -/
theorem getStats_empty :
    getStats [] = ⟨0, 0, 0, 0⟩ ∧
    ((run (Server.start []) [Event.connection 0, Event.statsSettled 0 true]).sockets 0).sent =
      [Frame.stringify (Message.stats_update ⟨0, 0, 0, 0⟩)] := by
  decide

/-- C14: the `ocrProcessed` of `getStats` is the number of records whose extracted text
is present and is not the empty string. -/
theorem ocrProcessed_counts_nonempty_text (rows : List Screenshot) :
    (getStats rows).ocrProcessed = (rows.filter spec_hasText).length ∧
    ∀ r : Screenshot, spec_hasText r = true ↔ ∃ text, r.ocr_text = some text ∧ text ≠ "" := by
  refine ⟨?_, ?_⟩
  · show rows.countP _ = _
    rw [List.countP_eq_length_filter]
    congr 1
    apply List.filter_congr
    intro r _
    unfold spec_hasText
    cases r.ocr_text with
    | none => rfl
    | some text => rfl
  · intro r
    unfold spec_hasText
    cases r.ocr_text <;> simp

/-- C15: the `categorized` of `getStats` is the number of records whose category is
present and differs from the default label `Uncategorized`. -/
theorem categorized_counts_non_default (rows : List Screenshot) :
    (getStats rows).categorized = (rows.filter spec_isCategorized).length ∧
    ∀ r : Screenshot, spec_isCategorized r = true ↔
      ∃ label, r.category = some label ∧ label ≠ "Uncategorized" := by
  refine ⟨?_, ?_⟩
  · show rows.countP _ = _
    rw [List.countP_eq_length_filter]
    congr 1
    apply List.filter_congr
    intro r _
    unfold spec_isCategorized
    cases r.category with
    | none => rfl
    | some label => rfl
  · intro r
    unfold spec_isCategorized
    cases r.category <;> simp

/-- C16: the `categories` of `getStats` is the number of distinct category labels among
the records: the size of the set of labels `l` that some record carries as its
category. A record without a category adds no label. -/
theorem categories_counts_distinct_labels (rows : List Screenshot) :
    (getStats rows).categories = (rows.filterMap (fun r => r.category)).toFinset.card ∧
    ∀ label : String, label ∈ (rows.filterMap (fun r => r.category)).toFinset ↔
      ∃ r ∈ rows, r.category = some label := by
  refine ⟨?_, ?_⟩
  · show (List.dedup _).length = _
    rw [List.card_toFinset]
  · intro label
    simp [List.mem_filterMap]


/-! ## Properties of the breakdown queries -/

/-- On a value that is not negative, `round1` gives a whole number of tenths at most one
twentieth away. -/
theorem round1_spec (x : Rat) (hx : 0 ≤ x) : spec_roundedToOneDecimal (round1 x) x := by
  unfold round1 spec_roundedToOneDecimal
  rw [if_pos hx]
  refine ⟨⟨_, rfl⟩, ?_⟩
  have h1 := Int.floor_le (x * 10 + 1 / 2)
  have h2 := Int.lt_floor_add_one (x * 10 + 1 / 2)
  rw [abs_le]
  constructor <;> linarith

/-- The percentage expression on a table that is not empty. -/
theorem percentage_of_ne_zero (count total : Nat) (ht : total ≠ 0) :
    percentage count total = some (round1 ((count : Rat) * 100 / (total : Rat))) := by
  have h : (total : Rat) ≠ 0 := by exact_mod_cast ht
  simp [percentage, sqlDiv, h]

/-- The percentage expression in whole tenths, by natural-number division. -/
theorem percentage_eq_tenths (count total : Nat) (ht : total ≠ 0) :
    percentage count total =
      some ((((2000 * count + total) / (2 * total) : Nat) : Rat) / 10) := by
  have h : (total : Rat) ≠ 0 := by exact_mod_cast ht
  have hnn : (0 : Rat) ≤ (count : Rat) * 100 / (total : Rat) := by positivity
  rw [percentage_of_ne_zero count total ht, round1, if_pos hnn]
  have hq : (count : Rat) * 100 / (total : Rat) * 10 + 1 / 2 =
      ((2000 * count + total : Nat) : Rat) / ((2 * total : Nat) : Rat) := by
    push_cast
    field_simp
    ring
  rw [hq, Rat.floor_natCast_div_natCast, ← Int.natCast_div, Int.cast_natCast]

/-- Counting a label among the values of a column counts the records that carry it. -/
theorem count_filterMap (key : Screenshot → Option String) (rows : List Screenshot)
    (label : String) :
    (rows.filterMap key).count label = rows.countP (fun r => key r = some label) := by
  induction rows with
  | nil => rfl
  | cons r rows ih =>
    cases hk : key r with
    | none => simp [List.filterMap_cons, hk, ih]
    | some l =>
      by_cases hl : l = label
      · simp [List.filterMap_cons, hk, hl, ih]
      · simp [List.filterMap_cons, hk, hl, ih, List.count_cons]

/-- The rows of a breakdown, before ordering. -/
theorem mem_breakdownGroups (key : Screenshot → Option String) (rows : List Screenshot)
    (g : Group) :
    g ∈ breakdownGroups key rows ↔
      (∃ r ∈ rows, key r = some g.label) ∧
      g.count = rows.countP (fun r => key r = some g.label) ∧
      g.percentage = percentage g.count rows.length := by
  unfold breakdownGroups
  simp only [List.mem_map, List.mem_dedup, List.mem_filterMap, count_filterMap]
  constructor
  · rintro ⟨l, hl, rfl⟩
    exact ⟨hl, rfl, rfl⟩
  · rintro ⟨hl, hc, hp⟩
    refine ⟨g.label, hl, ?_⟩
    cases g with
    | mk label count pct =>
      simp only at hc hp ⊢
      rw [hp, ← hc]

/-- The stable answer is a possible answer. -/
theorem stableBreakdown_isBreakdown (key : Screenshot → Option String)
    (rows : List Screenshot) : IsBreakdown key rows (stableBreakdown key rows) :=
  ⟨List.perm_insertionSort _ _, List.sorted_insertionSort _ _⟩

/-- The column values of a table in which the column is never `NULL` are as many as the
records. -/
theorem length_filterMap_of_exhaustive (key : Screenshot → Option String)
    (rows : List Screenshot) (h : ∀ r ∈ rows, key r ≠ none) :
    (rows.filterMap key).length = rows.length := by
  induction rows with
  | nil => rfl
  | cons r rows ih =>
    have hr : key r ≠ none := h r (List.mem_cons_self _ _)
    have ih1 := ih (fun x hx => h x (List.mem_cons_of_mem _ hx))
    cases hk : key r with
    | none => exact absurd hk hr
    | some l => simp [List.filterMap_cons, hk, ih1]

/-- Two lists of values that agree within `e` entry by entry have sums within `e` times
the number of entries. -/
theorem abs_sum_sub_sum_le (labels : List String) (f g : String → Rat) (e : Rat)
    (h : ∀ l ∈ labels, |f l - g l| ≤ e) :
    |(labels.map f).sum - (labels.map g).sum| ≤ (labels.length : Rat) * e := by
  induction labels with
  | nil => simp
  | cons a t ih =>
    have ha := h a (List.mem_cons_self _ _)
    have iht := ih (fun l hl => h l (List.mem_cons_of_mem _ hl))
    simp only [List.map_cons, List.sum_cons, List.length_cons, Nat.cast_add, Nat.cast_one]
    have : f a + (t.map f).sum - (g a + (t.map g).sum) =
        (f a - g a) + ((t.map f).sum - (t.map g).sum) := by ring
    rw [this]
    calc |f a - g a + ((t.map f).sum - (t.map g).sum)|
        ≤ |f a - g a| + |(t.map f).sum - (t.map g).sum| := abs_add _ _
      _ ≤ e + (t.length : Rat) * e := add_le_add ha iht
      _ = ((t.length : Rat) + 1) * e := by ring


/-- The groups of the six one-record categories. -/
theorem breakdownGroups_sixCategories :
    breakdownGroups (fun r => r.category) sixCategories =
      [⟨"a", 1, some (167 / 10)⟩, ⟨"b", 1, some (167 / 10)⟩, ⟨"c", 1, some (167 / 10)⟩,
       ⟨"d", 1, some (167 / 10)⟩, ⟨"e", 1, some (167 / 10)⟩, ⟨"f", 1, some (167 / 10)⟩] := by
  have hl : (sixCategories.filterMap (fun r => r.category)) = ["a", "b", "c", "d", "e", "f"] := by
    decide
  have hd : (["a", "b", "c", "d", "e", "f"] : List String).dedup = ["a", "b", "c", "d", "e", "f"] := by
    decide
  have hn : sixCategories.length = 6 := rfl
  have hp : percentage 1 6 = some (167 / 10) := by
    rw [percentage_eq_tenths 1 6 (by decide)]
    norm_num
  unfold breakdownGroups
  rw [hl, hd, hn]
  simp only [List.map]
  have hc : ∀ l ∈ (["a", "b", "c", "d", "e", "f"] : List String),
      List.count l ["a", "b", "c", "d", "e", "f"] = 1 := by decide
  simp [hc, hp]

/-- The groups of the two tied categories. -/
theorem breakdownGroups_twoTied :
    breakdownGroups (fun r => r.category) twoTied =
      [⟨"b", 1, some 50⟩, ⟨"a", 1, some 50⟩] := by
  have hl : (twoTied.filterMap (fun r => r.category)) = ["b", "a"] := by decide
  have hd : (["b", "a"] : List String).dedup = ["b", "a"] := by decide
  have hn : twoTied.length = 2 := rfl
  have hp : percentage 1 2 = some 50 := by
    rw [percentage_eq_tenths 1 2 (by decide)]
    norm_num
  unfold breakdownGroups
  rw [hl, hd, hn]
  simp only [List.map]
  have hc : ∀ l ∈ (["b", "a"] : List String), List.count l ["b", "a"] = 1 := by decide
  simp [hc, hp]


/-- Every row of a possible answer is the row of its group: the count is the number of
records carrying the label and, on a table that is not empty, the percentage is that
count times 100 over the number of all records, rounded to one decimal place. -/
theorem breakdown_group_spec (key : Screenshot → Option String) (rows : List Screenshot)
    (hne : rows ≠ []) (result : List Group) (hres : IsBreakdown key rows result)
    (g : Group) (hg : g ∈ result) :
    g.count = rows.countP (fun r => key r = some g.label) ∧
    ∃ p : Rat, g.percentage = some p ∧
      p = round1 ((g.count : Rat) * 100 / (rows.length : Rat)) ∧
      spec_roundedToOneDecimal p ((g.count : Rat) * 100 / (rows.length : Rat)) := by
  have hmem := (mem_breakdownGroups key rows g).mp (hres.1.subset hg)
  have hlen : rows.length ≠ 0 := fun h => hne (List.length_eq_zero.mp h)
  refine ⟨hmem.2.1, _, ?_, rfl, round1_spec _ (by positivity)⟩
  rw [hmem.2.2, percentage_of_ne_zero _ _ hlen]

/-- The sum of the percentages of a possible answer on a table in which the grouping
column is never `NULL`. -/
theorem percentageSum_near_100 (key : Screenshot → Option String) (rows : List Screenshot)
    (hne : rows ≠ []) (hall : ∀ r ∈ rows, key r ≠ none) (result : List Group)
    (hres : IsBreakdown key rows result) :
    |percentageSum result - 100| ≤ (result.length : Rat) / 20 := by
  have hlen : rows.length ≠ 0 := fun h => hne (List.length_eq_zero.mp h)
  have hlenq : (rows.length : Rat) ≠ 0 := by exact_mod_cast hlen
  have hsum : percentageSum result = percentageSum (breakdownGroups key rows) := by
    unfold percentageSum
    exact (hres.1.map _).sum_eq
  have hcount : result.length = ((rows.filterMap key).dedup).length := by
    rw [hres.1.length_eq]
    simp [breakdownGroups]
  have hround : percentageSum (breakdownGroups key rows) =
      (((rows.filterMap key).dedup).map (fun l =>
        round1 ((((rows.filterMap key).count l : Nat) : Rat) * 100 / (rows.length : Rat)))).sum := by
    unfold percentageSum breakdownGroups
    rw [List.map_map]
    congr 1
    apply List.map_congr_left
    intro l _
    simp [percentage_of_ne_zero _ _ hlen]
  have hexact : (((rows.filterMap key).dedup).map (fun l =>
      (((rows.filterMap key).count l : Nat) : Rat) * 100 / (rows.length : Rat))).sum = 100 := by
    have h1 := List.sum_map_count_dedup_eq_length (rows.filterMap key)
    have h2 : (((rows.filterMap key).dedup).map (fun l =>
        (((rows.filterMap key).count l : Nat) : Rat) * 100 / (rows.length : Rat))).sum =
        ((((rows.filterMap key).dedup).map (fun l => (rows.filterMap key).count l)).sum : Nat) *
          (100 / (rows.length : Rat)) := by
      generalize (rows.filterMap key).dedup = labels
      induction labels with
      | nil => simp
      | cons a t ih =>
        simp only [List.map_cons, List.sum_cons, ih]
        push_cast
        ring
    rw [h2, h1, length_filterMap_of_exhaustive key rows hall]
    field_simp
  have hbound := abs_sum_sub_sum_le ((rows.filterMap key).dedup)
    (fun l => round1 ((((rows.filterMap key).count l : Nat) : Rat) * 100 / (rows.length : Rat)))
    (fun l => (((rows.filterMap key).count l : Nat) : Rat) * 100 / (rows.length : Rat))
    (1 / 20) (fun l _ => (round1_spec _ (by positivity)).2)
  rw [hsum, hround, hcount]
  rw [hexact] at hbound
  calc _ ≤ (((rows.filterMap key).dedup).length : Rat) * (1 / 20) := hbound
    _ = _ := by ring

/-- C17: on a table that is not empty, every group of the category breakdown and every
group of the application breakdown of `/api/stats/detailed` has as `count` the number of
records carrying its label and as `percentage` that count times 100 divided by the
number of all records of the table, rounded to one decimal place. -/
theorem breakdown_percentage_rounded (rows : List Screenshot) (hne : rows ≠ [])
    (categories applications : List Group)
    (hc : IsBreakdown (fun r => r.category) rows categories)
    (ha : IsBreakdown (fun r => r.app_name) rows applications) :
    (∀ g ∈ categories,
      g.count = rows.countP (fun r => r.category = some g.label) ∧
      ∃ p : Rat, g.percentage = some p ∧
        spec_roundedToOneDecimal p ((g.count : Rat) * 100 / (rows.length : Rat))) ∧
    (∀ g ∈ applications,
      g.count = rows.countP (fun r => r.app_name = some g.label) ∧
      ∃ p : Rat, g.percentage = some p ∧
        spec_roundedToOneDecimal p ((g.count : Rat) * 100 / (rows.length : Rat))) := by
  refine ⟨fun g hg => ?_, fun g hg => ?_⟩
  · obtain ⟨h1, p, h2, -, h3⟩ := breakdown_group_spec _ rows hne categories hc g hg
    exact ⟨h1, p, h2, h3⟩
  · obtain ⟨h1, p, h2, -, h3⟩ := breakdown_group_spec _ rows hne applications ha g hg
    exact ⟨h1, p, h2, h3⟩

/-- C17, witness: the group `a` of the table of six one-record categories, one record
out of six, has 16.7 as its percentage. -/
theorem breakdown_percentage_rounded_witness :
    (1 : Nat) = sixCategories.countP (fun r => r.category = some "a") ∧
    spec_roundedToOneDecimal (167 / 10) (((1 : Nat) : Rat) * 100 / (sixCategories.length : Rat)) := by
  have hmem : (⟨"a", 1, some (167 / 10)⟩ : Group) ∈
      stableBreakdown (fun r => r.category) sixCategories := by
    rw [stableBreakdown, (List.perm_insertionSort _ _).mem_iff, breakdownGroups_sixCategories]
    exact List.mem_cons_self _ _
  obtain ⟨h1, p, h2, h3⟩ := (breakdown_percentage_rounded sixCategories (by decide)
    (stableBreakdown (fun r => r.category) sixCategories)
    (stableBreakdown (fun r => r.app_name) sixCategories)
    (stableBreakdown_isBreakdown _ _) (stableBreakdown_isBreakdown _ _)).1 _ hmem
  cases h2
  exact ⟨h1, h3⟩

/-- C18: on an empty table both breakdown queries of `/api/stats/detailed` return no
group at all, so every group returned has percentage zero; the percentage expression
itself is defined for a zero total, a division by zero being `NULL` in SQL and not an
error. -/
theorem empty_store_breakdown_has_no_group (categories applications : List Group)
    (hc : IsBreakdown (fun r => r.category) [] categories)
    (ha : IsBreakdown (fun r => r.app_name) [] applications) :
    categories = [] ∧ applications = [] ∧
    (∀ g ∈ categories ++ applications, g.percentage = some 0) ∧
    ∀ count : Nat, percentage count 0 = none := by
  have h1 : categories = [] := List.Perm.eq_nil hc.1
  have h2 : applications = [] := List.Perm.eq_nil ha.1
  subst h1 h2
  refine ⟨rfl, rfl, ?_, ?_⟩
  · intro g hg
    simp at hg
  · intro count
    simp [percentage, sqlDiv]

/-- C18, witness: the stable answers on the empty table. -/
theorem empty_store_breakdown_has_no_group_witness :
    stableBreakdown (fun r => r.category) [] = [] ∧
    stableBreakdown (fun r => r.app_name) [] = [] :=
  ⟨(empty_store_breakdown_has_no_group _ _ (stableBreakdown_isBreakdown _ [])
      (stableBreakdown_isBreakdown _ [])).1,
    (empty_store_breakdown_has_no_group _ _ (stableBreakdown_isBreakdown _ [])
      (stableBreakdown_isBreakdown _ [])).2.1⟩

/-- C19, as stated, fails: six records, each with a category of its own, give six groups
of 16.7 percent each; the table is not empty, every record has a category, and the
percentages sum to 100.2, which is more than 0.1 away from 100. -/
theorem six_groups_sum_off_by_two_tenths :
    sixCategories ≠ [] ∧
    (∀ r ∈ sixCategories, r.category ≠ none) ∧
    IsBreakdown (fun r => r.category) sixCategories
      (breakdownGroups (fun r => r.category) sixCategories) ∧
    percentageSum (breakdownGroups (fun r => r.category) sixCategories) = 1002 / 10 ∧
    ¬ |percentageSum (breakdownGroups (fun r => r.category) sixCategories) - 100| ≤ 1 / 10 := by
  have hsum : percentageSum (breakdownGroups (fun r => r.category) sixCategories) = 1002 / 10 := by
    rw [breakdownGroups_sixCategories]
    norm_num [percentageSum]
  refine ⟨by decide, by decide, ⟨List.Perm.refl _, ?_⟩, hsum, ?_⟩
  · rw [breakdownGroups_sixCategories]
    decide
  · rw [hsum]
    norm_num [abs_le]

/-- C19, amended: on a table that is not empty and in which every record has a category,
respectively an application name, each percentage is within 0.05 of the exact share, and
the percentages of the breakdown sum to 100 within 0.05 times the number of groups. -/
theorem percentage_sum_within_groups_over_20 (rows : List Screenshot) (hne : rows ≠ [])
    (categories applications : List Group)
    (hc : IsBreakdown (fun r => r.category) rows categories)
    (ha : IsBreakdown (fun r => r.app_name) rows applications) :
    ((∀ r ∈ rows, r.category ≠ none) →
      |percentageSum categories - 100| ≤ (categories.length : Rat) / 20) ∧
    ((∀ r ∈ rows, r.app_name ≠ none) →
      |percentageSum applications - 100| ≤ (applications.length : Rat) / 20) :=
  ⟨fun hall => percentageSum_near_100 _ rows hne hall categories hc,
    fun hall => percentageSum_near_100 _ rows hne hall applications ha⟩

/-- C19 amended, witness: the six one-record categories. -/
theorem percentage_sum_within_groups_over_20_witness :
    |percentageSum (stableBreakdown (fun r => r.category) sixCategories) - 100| ≤
      ((stableBreakdown (fun r => r.category) sixCategories).length : Rat) / 20 :=
  (percentage_sum_within_groups_over_20 sixCategories (by decide)
    (stableBreakdown (fun r => r.category) sixCategories)
    (stableBreakdown (fun r => r.app_name) sixCategories)
    (stableBreakdown_isBreakdown _ _) (stableBreakdown_isBreakdown _ _)).1 (by decide)

/-- C20, as stated, fails: for two records with the categories `b` and `a` the answer
listing `b` before `a` satisfies `ORDER BY count DESC`, both counts being 1, and its two
groups of equal count are not in ascending order of their labels. -/
theorem tied_groups_need_not_ascend :
    IsBreakdown (fun r => r.category) twoTied [⟨"b", 1, some 50⟩, ⟨"a", 1, some 50⟩] ∧
    ¬ ([⟨"b", 1, some 50⟩, ⟨"a", 1, some 50⟩] : List Group).Pairwise
        (fun g h => g.count = h.count → g.label < h.label) := by
  refine ⟨⟨?_, by decide⟩, ?_⟩
  · rw [breakdownGroups_twoTied]
  · intro h
    have h1 := List.rel_of_pairwise_cons h (List.mem_singleton_self _) rfl
    rw [String.lt_iff_toList_lt] at h1
    revert h1
    decide

/-- C20, amended: in every answer to the category or application breakdown query, a group
listed earlier never has a smaller count than one listed later, and the answer lists
each distinct label once; among groups of equal count the query fixes no order, every
rearrangement that keeps the counts descending being an answer as well. -/
theorem breakdown_ordered_by_count_only (rows : List Screenshot)
    (categories applications : List Group)
    (hc : IsBreakdown (fun r => r.category) rows categories)
    (ha : IsBreakdown (fun r => r.app_name) rows applications) :
    categories.Pairwise (fun g h => h.count ≤ g.count) ∧
    applications.Pairwise (fun g h => h.count ≤ g.count) ∧
    (categories.map (fun g => g.label)).Perm (rows.filterMap (fun r => r.category)).dedup ∧
    (applications.map (fun g => g.label)).Perm (rows.filterMap (fun r => r.app_name)).dedup ∧
    (∀ other : List Group, other.Perm categories →
      other.Pairwise (fun g h => h.count ≤ g.count) →
      IsBreakdown (fun r => r.category) rows other) ∧
    (∀ other : List Group, other.Perm applications →
      other.Pairwise (fun g h => h.count ≤ g.count) →
      IsBreakdown (fun r => r.app_name) rows other) := by
  have hlabels : ∀ key : Screenshot → Option String,
      (breakdownGroups key rows).map (fun g => g.label) = (rows.filterMap key).dedup := by
    intro key
    simp [breakdownGroups, List.map_map, Function.comp_def]
  refine ⟨hc.2, ha.2, ?_, ?_, ?_, ?_⟩
  · rw [← hlabels]
    exact hc.1.map _
  · rw [← hlabels]
    exact ha.1.map _
  · intro other hp hs
    exact ⟨hp.trans hc.1, hs⟩
  · intro other hp hs
    exact ⟨hp.trans ha.1, hs⟩

/-- C20 amended, witness: both orders of the two tied categories are answers. -/
theorem breakdown_ordered_by_count_only_witness :
    IsBreakdown (fun r => r.category) twoTied
      ((stableBreakdown (fun r => r.category) twoTied).reverse) :=
  (breakdown_ordered_by_count_only twoTied
    (stableBreakdown (fun r => r.category) twoTied)
    (stableBreakdown (fun r => r.app_name) twoTied)
    (stableBreakdown_isBreakdown _ _) (stableBreakdown_isBreakdown _ _)).2.2.2.2.1
    ((stableBreakdown (fun r => r.category) twoTied).reverse)
    (List.reverse_perm _)
    (by
      have h : stableBreakdown (fun r => r.category) twoTied =
          [⟨"b", 1, some 50⟩, ⟨"a", 1, some 50⟩] := by
        rw [stableBreakdown, breakdownGroups_twoTied]
        decide
      rw [h]
      decide)


/-! ## Properties of the record queries and of their parameters -/

/-- The stable outcome is a possible outcome of the recent-records query. -/
theorem stableRecent_isRecent (rows : List Screenshot) (limit : Int) :
    IsRecent rows limit (stableRecent rows limit) := by
  unfold stableRecent
  by_cases h : limitFits limit
  · rw [if_pos h]
    exact ⟨h, rows.insertionSort createdDesc, List.perm_insertionSort _ _,
      List.sorted_insertionSort _ _, by split <;> rfl⟩
  · rw [if_neg h]
    exact h

/-- The answer on the three records with limit 2 is one and the same whatever the
engine does: T3 then T2. -/
theorem recent_three_limit_two (outcome : QueryOutcome)
    (h : IsRecent threeRecords 2 outcome) :
    outcome = QueryOutcome.rows
      [recordAt 3 "2024-05-03 10:00:00", recordAt 2 "2024-05-02 10:00:00"] := by
  cases outcome with
  | error message => exact absurd (show limitFits 2 by decide) h
  | rows result =>
    obtain ⟨-, sorted, hperm, hsorted, rfl⟩ := h
    have hlen : sorted.length = 3 := hperm.length_eq
    obtain ⟨a, b, c, rfl⟩ := List.length_eq_three.mp hlen
    have ha : a ∈ threeRecords := hperm.subset (List.mem_cons_self _ _)
    have hb : b ∈ threeRecords :=
      hperm.subset (List.mem_cons_of_mem _ (List.mem_cons_self _ _))
    have hc : c ∈ threeRecords :=
      hperm.subset (List.mem_cons_of_mem _ (List.mem_cons_of_mem _ (List.mem_cons_self _ _)))
    simp only [threeRecords, List.mem_cons, List.mem_singleton, List.not_mem_nil,
      or_false] at ha hb hc
    rcases ha with rfl | rfl | rfl <;> rcases hb with rfl | rfl | rfl <;>
      rcases hc with rfl | rfl | rfl <;> revert hperm hsorted <;> decide

/-- Stored numbers are ordered by value: of the records created at 9 and at 10, the
answer with limit 1 is the record created at 10. -/
theorem recent_numbers_by_value (outcome : QueryOutcome)
    (h : IsRecent numberedRecords 1 outcome) :
    outcome = QueryOutcome.rows
      [{ sampleRow 2 none none with created_at := SqlValue.integer 10 }] := by
  cases outcome with
  | error message => exact absurd (show limitFits 1 by decide) h
  | rows result =>
    obtain ⟨-, sorted, hperm, hsorted, rfl⟩ := h
    have hlen : sorted.length = 2 := hperm.length_eq
    obtain ⟨a, b, rfl⟩ := List.length_eq_two.mp hlen
    have ha : a ∈ numberedRecords := hperm.subset (List.mem_cons_self _ _)
    have hb : b ∈ numberedRecords :=
      hperm.subset (List.mem_cons_of_mem _ (List.mem_cons_self _ _))
    simp only [numberedRecords, List.mem_cons, List.mem_singleton, List.not_mem_nil,
      or_false] at ha hb
    rcases ha with rfl | rfl <;> rcases hb with rfl | rfl <;>
      revert hperm hsorted <;> decide

/-- C21, as stated, fails: the limit parameter `1000000000000000000000` gives a limit
that is at least 1, and with it the recent-records query returns no records at all: the
engine rejects the limit and the handler answers with status 500. -/
theorem huge_limit_is_rejected :
    recentLimit (some "1000000000000000000000") = 1000000000000000000000 ∧
    (1 : Int) ≤ 1000000000000000000000 ∧
    (¬ ∃ result, IsRecent threeRecords 1000000000000000000000 (QueryOutcome.rows result)) ∧
    IsRecent threeRecords 1000000000000000000000
      (stableRecent threeRecords 1000000000000000000000) ∧
    (recentHandler (stableRecent threeRecords 1000000000000000000000)).status = 500 := by
  refine ⟨by decide, by decide, ?_, stableRecent_isRecent _ _, by decide⟩
  rintro ⟨result, hfits, -⟩
  revert hfits
  decide

/-- C21, amended: for every table and every limit `n` with `1 ≤ n < 2^63` the
recent-records query has an outcome, and every outcome holds exactly
`min(n, number of records)` records, in descending order of `created_at` as the engine
compares its values, the records it leaves out being none of them created later than
any record it holds, and the handler sends these records; for a limit of `2^63` or more
every outcome is an error and the handler answers with status 500. -/
theorem recent_returns_latest_in_range (rows : List Screenshot) (n : Int) (hn : 1 ≤ n) :
    (n < (2 : Int) ^ 63 →
      (∃ outcome, IsRecent rows n outcome) ∧
      ∀ outcome, IsRecent rows n outcome →
        ∃ result : List Screenshot, outcome = QueryOutcome.rows result ∧
          recentHandler outcome = RecentResponse.screenshots result ∧
          result.length = min n.toNat rows.length ∧
          result.Sorted createdDesc ∧
          ∃ rest : List Screenshot, (result ++ rest).Perm rows ∧
            ∀ a ∈ result, ∀ b ∈ rest, createdLe b a) ∧
    ((2 : Int) ^ 63 ≤ n →
      ∀ outcome, IsRecent rows n outcome →
        (∃ message, outcome = QueryOutcome.error message) ∧
        (recentHandler outcome).status = 500) := by
  constructor
  · intro hlt
    have hfits : limitFits n := ⟨by omega, hlt⟩
    refine ⟨⟨_, stableRecent_isRecent rows n⟩, ?_⟩
    intro outcome h
    cases outcome with
    | error message => exact absurd hfits h
    | rows result =>
      obtain ⟨-, sorted, hperm, hsorted, rfl⟩ := h
      have hneg : ¬ n < 0 := by omega
      rw [if_neg hneg]
      refine ⟨_, rfl, rfl, ?_, ?_, sorted.drop n.toNat, ?_, ?_⟩
      · rw [List.length_take, hperm.length_eq]
      · exact hsorted.sublist (List.take_sublist _ _)
      · rw [List.take_append_drop]
        exact hperm
      · have hs : (sorted.take n.toNat ++ sorted.drop n.toNat).Sorted createdDesc := by
          rw [List.take_append_drop]
          exact hsorted
        intro a ha b hb
        exact (List.pairwise_append.mp hs).2.2 a ha b hb
  · intro hge outcome h
    have hnot : ¬ limitFits n := fun hf => absurd hf.2 (by omega)
    cases outcome with
    | error message => exact ⟨⟨message, rfl⟩, rfl⟩
    | rows result => exact absurd h.1 hnot

/-- C21 amended, witness: the three records created at T1 < T2 < T3, asked for with
limit 2, give T3 then T2. -/
theorem recent_returns_latest_in_range_witness :
    stableRecent threeRecords 2 = QueryOutcome.rows
      [recordAt 3 "2024-05-03 10:00:00", recordAt 2 "2024-05-02 10:00:00"] ∧
    ([recordAt 3 "2024-05-03 10:00:00", recordAt 2 "2024-05-02 10:00:00"] :
      List Screenshot).length = min (2 : Int).toNat threeRecords.length ∧
    ([recordAt 3 "2024-05-03 10:00:00", recordAt 2 "2024-05-02 10:00:00"] :
      List Screenshot).Sorted createdDesc := by
  have hstable : stableRecent threeRecords 2 = QueryOutcome.rows
      [recordAt 3 "2024-05-03 10:00:00", recordAt 2 "2024-05-02 10:00:00"] := by decide
  obtain ⟨result, heq, -, hlen, hsorted, -⟩ :=
    ((recent_returns_latest_in_range threeRecords 2 (by decide)).1 (by decide)).2
      (stableRecent threeRecords 2) (stableRecent_isRecent _ _)
  rw [hstable] at heq
  cases heq
  exact ⟨hstable, hlen, hsorted⟩

/-- C30: the limit used by `/api/screenshots/recent` is the integer `parseInt` reads
from the `limit` parameter when that is a number other than zero, and 10 when the
parameter is absent, holds no number or holds zero; it is never 0. -/
theorem recent_limit_default (limitParam : Option String) :
    recentLimit limitParam ≠ 0 ∧
    (∀ n : Int, parseInt limitParam = some n → n ≠ 0 → recentLimit limitParam = n) ∧
    (parseInt limitParam = none ∨ parseInt limitParam = some 0 →
      recentLimit limitParam = 10) ∧
    recentLimit none = 10 ∧ recentLimit (some "abc") = 10 ∧ recentLimit (some "0") = 10 := by
  refine ⟨?_, ?_, ?_, by decide, by decide, by decide⟩
  · unfold recentLimit orDefault
    cases parseInt limitParam with
    | none => decide
    | some n =>
      by_cases hz : n = 0
      · simp [hz]
      · simp [hz]
  · intro n hp hz
    simp [recentLimit, orDefault, hp, hz]
  · intro h
    rcases h with h | h <;> simp [recentLimit, orDefault, h]

/-- C30, witness: the parameter `25` gives 25, the parameter `0` gives 10. -/
theorem recent_limit_default_witness :
    recentLimit (some "25") = 25 ∧ recentLimit (some "0") = 10 :=
  ⟨(recent_limit_default (some "25")).2.1 25 (by decide) (by decide),
    (recent_limit_default (some "0")).2.2.1 (Or.inr (by decide))⟩


/-- The number of occurrences of a character in two texts put together. -/
theorem count_append_toList (a b : String) (c : Char) :
    (a ++ b).toList.count c = a.toList.count c + b.toList.count c := by
  simp only [String.toList, String.data_append, List.count_append]

/-- The SQL text and the parameter list of `/api/search`, clause by clause. -/
theorem buildSearch_eq (query category app days : Option String) :
    (buildSearch query category app days).1 =
      "SELECT * FROM screenshots WHERE 1=1" ++
      (if truthy query then " AND (ocr_text LIKE ? OR file_name LIKE ? OR window_title LIKE ?)"
        else "") ++
      (if truthy category then " AND category = ?" else "") ++
      (if truthy app then " AND app_name = ?" else "") ++
      (if truthy days then " AND created_at >= datetime(\"now\", \"-\" || ? || \" days\")"
        else "") ++
      " ORDER BY created_at DESC LIMIT 50" ∧
    (buildSearch query category app days).2 =
      (if truthy query then
        ["%" ++ query.getD "" ++ "%", "%" ++ query.getD "" ++ "%", "%" ++ query.getD "" ++ "%"]
        else []) ++
      (if truthy category then [category.getD ""] else []) ++
      (if truthy app then [app.getD ""] else []) ++
      (if truthy days then [days.getD ""] else []) := by
  unfold buildSearch
  cases truthy query <;> cases truthy category <;> cases truthy app <;> cases truthy days <;>
    simp only [if_true, if_false, Bool.false_eq_true, String.append_empty, List.append_nil,
      List.nil_append, List.append_assoc, List.cons_append, and_self]


/-- C29: for every combination of the parameters `query`, `category`, `app` and `days`,
each used when it is present and not empty, the SQL text of `/api/search` is the fixed
head, the clauses of the parameters used, in that order, and the tail
`ORDER BY created_at DESC LIMIT 50`; the parameter list holds, in the same order, the
pattern of `query` three times and the values of `category`, `app` and `days` once
each; the text has as many `?` as the list has entries; and a parameter that is the
empty string changes nothing compared with its absence. -/
theorem search_placeholders_match_params (query category app days : Option String) :
    (buildSearch query category app days).1 =
      "SELECT * FROM screenshots WHERE 1=1" ++
      (if truthy query then " AND (ocr_text LIKE ? OR file_name LIKE ? OR window_title LIKE ?)"
        else "") ++
      (if truthy category then " AND category = ?" else "") ++
      (if truthy app then " AND app_name = ?" else "") ++
      (if truthy days then " AND created_at >= datetime(\"now\", \"-\" || ? || \" days\")"
        else "") ++
      " ORDER BY created_at DESC LIMIT 50" ∧
    (buildSearch query category app days).2 =
      (if truthy query then
        ["%" ++ query.getD "" ++ "%", "%" ++ query.getD "" ++ "%", "%" ++ query.getD "" ++ "%"]
        else []) ++
      (if truthy category then [category.getD ""] else []) ++
      (if truthy app then [app.getD ""] else []) ++
      (if truthy days then [days.getD ""] else []) ∧
    (buildSearch query category app days).1.toList.count '?' =
      (buildSearch query category app days).2.length ∧
    (buildSearch query category app days).2.length =
      (if truthy query then 3 else 0) + (if truthy category then 1 else 0) +
      (if truthy app then 1 else 0) + (if truthy days then 1 else 0) ∧
    " ORDER BY created_at DESC LIMIT 50".toList <:+
      (buildSearch query category app days).1.toList ∧
    buildSearch (some "") category app days = buildSearch none category app days ∧
    buildSearch query (some "") app days = buildSearch query none app days ∧
    buildSearch query category (some "") days = buildSearch query category none days ∧
    buildSearch query category app (some "") = buildSearch query category app none := by
  have h0 : "SELECT * FROM screenshots WHERE 1=1".toList.count '?' = 0 := by decide
  have h1 : " AND (ocr_text LIKE ? OR file_name LIKE ? OR window_title LIKE ?)".toList.count '?'
      = 3 := by decide
  have h2 : " AND category = ?".toList.count '?' = 1 := by decide
  have h3 : " AND app_name = ?".toList.count '?' = 1 := by decide
  have h4 : " AND created_at >= datetime(\"now\", \"-\" || ? || \" days\")".toList.count '?'
      = 1 := by decide
  have h5 : " ORDER BY created_at DESC LIMIT 50".toList.count '?' = 0 := by decide
  have h6 : "".toList.count '?' = 0 := rfl
  have hempty : truthy (some "") = false := by decide
  have hnone : truthy none = false := rfl
  have key := buildSearch_eq query category app days
  have hlen : (buildSearch query category app days).2.length =
      (if truthy query then 3 else 0) + (if truthy category then 1 else 0) +
      (if truthy app then 1 else 0) + (if truthy days then 1 else 0) := by
    rw [key.2]
    cases truthy query <;> cases truthy category <;> cases truthy app <;>
      cases truthy days <;> rfl
  refine ⟨key.1, key.2, ?_, hlen, ?_, ?_, ?_, ?_, ?_⟩
  · rw [hlen, key.1]
    simp only [count_append_toList, h0, h5]
    cases truthy query <;> cases truthy category <;> cases truthy app <;>
      cases truthy days <;>
      simp only [if_true, if_false, Bool.false_eq_true, h1, h2, h3, h4, h6]
  · rw [key.1]
    exact ⟨_, (String.data_append _ _).symm⟩
  · apply Prod.ext
    · rw [(buildSearch_eq (some "") category app days).1,
        (buildSearch_eq none category app days).1, hempty, hnone]
    · rw [(buildSearch_eq (some "") category app days).2,
        (buildSearch_eq none category app days).2, hempty, hnone]
      rfl
  · apply Prod.ext
    · rw [(buildSearch_eq query (some "") app days).1,
        (buildSearch_eq query none app days).1, hempty, hnone]
    · rw [(buildSearch_eq query (some "") app days).2,
        (buildSearch_eq query none app days).2, hempty, hnone]
      rfl
  · apply Prod.ext
    · rw [(buildSearch_eq query category (some "") days).1,
        (buildSearch_eq query category none days).1, hempty, hnone]
    · rw [(buildSearch_eq query category (some "") days).2,
        (buildSearch_eq query category none days).2, hempty, hnone]
      rfl
  · apply Prod.ext
    · rw [(buildSearch_eq query category app (some "")).1,
        (buildSearch_eq query category app none).1, hempty, hnone]
    · rw [(buildSearch_eq query category app (some "")).2,
        (buildSearch_eq query category app none).2, hempty, hnone]
      rfl

/-- C29, witness: a search for `cat` over the last 7 days, the `app` parameter being the
empty string. -/
theorem search_placeholders_match_params_witness :
    (buildSearch (some "cat") none (some "") (some "7")).2 = ["%cat%", "%cat%", "%cat%", "7"] ∧
    (buildSearch (some "cat") none (some "") (some "7")).1.toList.count '?' =
      (buildSearch (some "cat") none (some "") (some "7")).2.length :=
  ⟨by decide, (search_placeholders_match_params (some "cat") none (some "") (some "7")).2.2.1⟩


/-- The records with a text split into those with a non-empty text and those whose text
is the empty string. -/
theorem countP_text_split (rows : List Screenshot) :
    rows.countP (fun r => r.ocr_text.isSome) =
      rows.countP (fun r => r.ocr_text.isSome && r.ocr_text != some "") +
      rows.countP (fun r => decide (r.ocr_text = some "")) := by
  induction rows with
  | nil => rfl
  | cons r rows ih =>
    simp only [List.countP_cons, ih]
    cases h : r.ocr_text with
    | none => simp
    | some text =>
      by_cases ht : text = ""
      · subst ht
        simp
        omega
      · simp [ht]
        omega

/-- C28: the `ocrProcessed` of `/api/stats/detailed` counts every record whose text is
not `NULL`, so it is at least the `ocrProcessed` of `getStats`, and the two are equal
exactly when no record has the empty string as text; `totalScreenshots` and
`categorized` are the same at both endpoints. -/
theorem detailed_overview_against_getStats (daysParam : Option String)
    (rows : List Screenshot) :
    (getStats rows).ocrProcessed ≤ (detailedOverview daysParam rows).ocrProcessed ∧
    ((detailedOverview daysParam rows).ocrProcessed = (getStats rows).ocrProcessed ↔
      ∀ r ∈ rows, r.ocr_text ≠ some "") ∧
    (detailedOverview daysParam rows).totalScreenshots = (getStats rows).totalScreenshots ∧
    (detailedOverview daysParam rows).categorized = (getStats rows).categorized := by
  have hsplit := countP_text_split rows
  refine ⟨?_, ?_, rfl, rfl⟩
  · show rows.countP _ ≤ rows.countP _
    omega
  · show rows.countP _ = rows.countP _ ↔ _
    rw [hsplit]
    constructor
    · intro h r hr
      have hz : rows.countP (fun r => decide (r.ocr_text = some "")) = 0 := by omega
      have := List.countP_eq_zero.mp hz r hr
      simpa using this
    · intro h
      have hz : rows.countP (fun r => decide (r.ocr_text = some "")) = 0 := by
        rw [List.countP_eq_zero]
        intro r hr
        simpa using h r hr
      omega

/-- C27: whenever `handleWebSocketMessage` returns, a message of type `stats_update`
has left the activity list as it was, and a message of type `new_screenshot` or
`activity_update` has left the statistics snapshot as it was; in both cases the
connection state is untouched as well. -/
theorem message_reducer_frame (c c1 : Client) (data t : JVal)
    (ht : data.prop "type" = Except.ok t)
    (h : handleWebSocketMessage data c = Except.ok c1) :
    (t = JVal.str "stats_update" → c1.recentActivity = c.recentActivity) ∧
    (t = JVal.str "new_screenshot" ∨ t = JVal.str "activity_update" → c1.stats = c.stats) ∧
    c1.socket = c.socket ∧ c1.isConnected = c.isConnected := by
  obtain ⟨p, hp⟩ := prop_payload_ok data t ht
  refine ⟨?_, ?_, ?_, ?_⟩
  · intro hs
    subst hs
    simp [handleWebSocketMessage, ht, hp, JVal.isStr, Except.map] at h
    rw [← h]
  · intro hs
    rcases hs with hs | hs <;> subst hs <;>
      simp [handleWebSocketMessage, ht, hp, JVal.isStr, Except.map] at h <;> rw [← h]
  · simp only [handleWebSocketMessage, ht, hp, Except.map] at h
    split_ifs at h <;> cases h <;> rfl
  · simp only [handleWebSocketMessage, ht, hp, Except.map] at h
    split_ifs at h <;> cases h <;> rfl

/-- C27, witness: a `stats_update` and an `activity_update` arriving at a client whose
activity list is full. -/
theorem message_reducer_frame_witness :
    (∀ c1 : Client, handleWebSocketMessage sampleStatsData fullClient = Except.ok c1 →
      c1.recentActivity = fullClient.recentActivity) ∧
    (∀ c1 : Client, handleWebSocketMessage sampleActivityUpdate fullClient = Except.ok c1 →
      c1.stats = fullClient.stats) :=
  ⟨fun c1 h => (message_reducer_frame fullClient c1 sampleStatsData
      (JVal.str "stats_update") rfl h).1 rfl,
    fun c1 h => (message_reducer_frame fullClient c1 sampleActivityUpdate
      (JVal.str "activity_update") rfl h).2.1 (Or.inr rfl)⟩

/-- C26 (evaluation at the failing input): with a stored database path `archive.db` and
log level `DEBUG`, confirming `Reset to Defaults` puts the nine settings it names back
to their defaults, here `maxFileSize`, and leaves `dbPath` and `logLevel` at their
changed values, which differ from those of `defaultSettings`; the function
`resetSettings` of the provider, which the panel does not call, restores them. -/
theorem reset_keeps_dbPath_and_logLevel :
    (handleReset true customSettings).lookup "maxFileSize" = defaultSettings.lookup "maxFileSize" ∧
    (handleReset true customSettings).lookup "dbPath" = some (SettingValue.str "archive.db") ∧
    (handleReset true customSettings).lookup "logLevel" = some (SettingValue.str "DEBUG") ∧
    defaultSettings.lookup "dbPath" = some (SettingValue.str "smartshot.db") ∧
    defaultSettings.lookup "logLevel" = some (SettingValue.str "INFO") ∧
    (resetSettings customSettings).lookup "dbPath" = defaultSettings.lookup "dbPath" ∧
    (resetSettings customSettings).lookup "logLevel" = defaultSettings.lookup "logLevel" := by
  refine ⟨rfl, rfl, rfl, rfl, rfl, rfl, rfl⟩


/-! ## Properties of the settings endpoints and of the record inserts -/

/-- The row found under a key after `INSERT OR REPLACE`. -/
theorem lookup_insertOrReplace (key : String) (value : SettingText) (table : SettingsTable)
    (k : String) :
    (insertOrReplace key value table).lookup k =
      if k = key then some value else table.lookup k := by
  unfold insertOrReplace
  induction table with
  | nil =>
    by_cases h : k = key
    · simp [List.lookup, h]
    · have hbeq : (k == key) = false := by simpa using h
      simp [List.lookup, h, hbeq]
  | cons row rest ih =>
    obtain ⟨rk, rv⟩ := row
    by_cases hrk : rk = key
    · subst hrk
      simp only [ne_eq, not_true_eq_false, decide_False, Bool.false_eq_true,
        not_false_eq_true, List.filter_cons_of_neg]
      rw [ih]
      by_cases h : k = rk
      · simp [h]
      · have hbeq : (k == rk) = false := by simpa using h
        simp [h, List.lookup, hbeq]
    · have hk : decide (rk ≠ key) = true := by simpa using hrk
      simp only [List.filter_cons, hk, if_true, List.cons_append]
      by_cases h : k = rk
      · subst h
        simp [List.lookup, hrk]
      · simp only [List.lookup, beq_iff_eq, h, if_false]
        have hbeq : (k == rk) = false := by simpa using h
        simp only [hbeq]
        exact ih

/-- The number of rows under a key after `INSERT OR REPLACE`. -/
theorem countP_insertOrReplace (key : String) (value : SettingText) (table : SettingsTable)
    (k : String) :
    (insertOrReplace key value table).countP (fun row => row.1 = k) =
      if k = key then 1 else table.countP (fun row => row.1 = k) := by
  unfold insertOrReplace
  rw [List.countP_append, List.countP_filter]
  by_cases h : k = key
  · subst h
    have hz : table.countP (fun a => decide (a.1 = k) && decide (a.1 ≠ k)) = 0 := by
      rw [List.countP_eq_zero]
      intro a _
      by_cases ha : a.1 = k <;> simp [ha]
    simp [hz]
  · have hk : ¬ key = k := fun e => h e.symm
    simp only [h, if_false, List.countP_cons, List.countP_nil, hk, decide_False,
      Bool.false_eq_true, add_zero]
    apply List.countP_congr
    intro a _
    by_cases ha : a.1 = k
    · simp [ha, h]
    · simp [ha]

/-- The writes of a batch none of whose runs fails. -/
theorem postSettingsWrites_all_ok (body : JsObject) (runOk : Nat → Bool)
    (hok : ∀ i, runOk i = true) (table : SettingsTable) :
    postSettingsWrites body runOk table =
      body.foldl (fun t entry => insertOrReplace entry.1 (SettingText.json entry.2) t) table := by
  unfold postSettingsWrites List.enum
  generalize 0 = n
  induction body generalizing n table with
  | nil => rfl
  | cons e rest ih =>
    simp only [List.enumFrom_cons, List.foldl_cons]
    rw [if_pos (hok n)]
    exact ih _ _

/-- The row under a key after the writes of a batch: the value of the batch when the
batch holds the key, the row of before otherwise. -/
theorem lookup_foldl_insertOrReplace (body : JsObject) (hkeys : (body.map Prod.fst).Nodup)
    (table : SettingsTable) (k : String) :
    (∀ v, (k, v) ∈ body →
      (body.foldl (fun t entry => insertOrReplace entry.1 (SettingText.json entry.2) t)
        table).lookup k = some (SettingText.json v)) ∧
    (k ∉ body.map Prod.fst →
      (body.foldl (fun t entry => insertOrReplace entry.1 (SettingText.json entry.2) t)
        table).lookup k = table.lookup k) := by
  induction body generalizing table with
  | nil => simp
  | cons e rest ih =>
    obtain ⟨ek, ev⟩ := e
    have hnd := List.nodup_cons.mp hkeys
    have ihr := ih hnd.2 (insertOrReplace ek (SettingText.json ev) table)
    constructor
    · intro v hv
      rw [List.foldl_cons]
      rcases List.mem_cons.mp hv with h | h
      · obtain ⟨rfl, rfl⟩ := Prod.mk.inj h
        rw [ihr.2 hnd.1, lookup_insertOrReplace]
        simp
      · exact ihr.1 v h
    · intro hk
      rw [List.foldl_cons]
      have hk1 : k ≠ ek := fun e => hk (by simp [e])
      have hk2 : k ∉ rest.map Prod.fst := fun e => hk (by simp at e ⊢; exact Or.inr e)
      rw [ihr.2 hk2, lookup_insertOrReplace, if_neg hk1]

/-- A key written by a batch has exactly one row afterwards. -/
theorem countP_foldl_insertOrReplace (body : JsObject) (table : SettingsTable) (k : String)
    (hk : k ∈ body.map Prod.fst) :
    (body.foldl (fun t entry => insertOrReplace entry.1 (SettingText.json entry.2) t)
      table).countP (fun row => row.1 = k) = 1 := by
  induction body using List.reverseRecOn with
  | nil => simp at hk
  | append_singleton init e ih =>
    rw [List.foldl_append, List.foldl_cons, List.foldl_nil, countP_insertOrReplace]
    by_cases he : k = e.1
    · simp [he]
    · rw [if_neg he]
      apply ih
      simp only [List.map_append, List.map_cons, List.map_nil, List.mem_append,
        List.mem_singleton] at hk
      rcases hk with hk | hk
      · exact hk
      · exact absurd hk he


/-- The keys of a table stay distinct under `INSERT OR REPLACE`. -/
theorem nodup_keys_insertOrReplace (key : String) (value : SettingText) (table : SettingsTable)
    (h : (table.map Prod.fst).Nodup) :
    ((insertOrReplace key value table).map Prod.fst).Nodup := by
  unfold insertOrReplace
  rw [List.map_append, List.nodup_append]
  refine ⟨(h.sublist ((List.filter_sublist _).map _)), by simp, ?_⟩
  intro a ha hb
  simp only [List.map_cons, List.map_nil, List.mem_singleton] at hb
  subst hb
  simp only [List.mem_map, List.mem_filter] at ha
  obtain ⟨row, ⟨_, hne⟩, rfl⟩ := ha
  simp at hne

/-- The keys of a table stay distinct under the writes of a batch. -/
theorem nodup_keys_foldl_insertOrReplace (body : JsObject) (table : SettingsTable)
    (h : (table.map Prod.fst).Nodup) :
    ((body.foldl (fun t entry => insertOrReplace entry.1 (SettingText.json entry.2) t)
      table).map Prod.fst).Nodup := by
  induction body generalizing table with
  | nil => exact h
  | cons e rest ih => exact ih _ (nodup_keys_insertOrReplace _ _ _ h)

/-- No row is found under a key the table does not hold. -/
theorem lookup_eq_none_of_not_mem {β : Type} (l : List (String × β)) (k : String)
    (h : k ∉ l.map Prod.fst) : l.lookup k = none := by
  induction l with
  | nil => rfl
  | cons row rest ih =>
    obtain ⟨rk, rv⟩ := row
    have h1 : k ≠ rk := fun e => h (by simp [e])
    have h2 : k ∉ rest.map Prod.fst := fun e => h (by simp at e ⊢; exact Or.inr e)
    have hbeq : (k == rk) = false := by simpa using h1
    simp [List.lookup, hbeq, ih h2]

/-- The row found under a key in a table with one more row at its end. -/
theorem lookup_append_singleton {β : Type} (l : List (String × β)) (row : String × β)
    (k : String) :
    (l ++ [row]).lookup k =
      match l.lookup k with
      | some v => some v
      | none => if k = row.1 then some row.2 else none := by
  induction l with
  | nil =>
    by_cases h : k = row.1
    · simp [List.lookup, h]
    · have hbeq : (k == row.1) = false := by simpa using h
      simp [List.lookup, h, hbeq]
  | cons r rest ih =>
    obtain ⟨rk, rv⟩ := r
    by_cases h : k = rk
    · simp [List.lookup, h]
    · have hbeq : (k == rk) = false := by simpa using h
      simp only [List.cons_append, List.lookup, hbeq]
      exact ih

/-- An assignment under the key `__proto__` leaves the own properties as they were. -/
theorem assignProperty_proto (object : JsObject) (value : JVal) :
    assignProperty object "__proto__" value = object := by
  unfold assignProperty
  rw [if_pos rfl]

/-- The property found under a key after the value of an own property was written
over. -/
theorem lookup_map_replace (object : JsObject) (key : String) (value : JVal) (k : String) :
    (object.map (fun p => if p.1 = key then (key, value) else p)).lookup k =
      if k = key then (object.lookup key).map (fun _ => value) else object.lookup k := by
  induction object with
  | nil =>
    by_cases h : k = key
    · rw [if_pos h]
      rfl
    · rw [if_neg h]
      rfl
  | cons p rest ih =>
    obtain ⟨pk, pv⟩ := p
    by_cases hp : pk = key
    · rw [List.map_cons, if_pos hp]
      by_cases h : k = key
      · have hb1 : (k == key) = true := by simpa using h
        have hb2 : (key == pk) = true := by simpa using hp.symm
        rw [if_pos h, List.lookup_cons, List.lookup_cons, hb1, hb2]
        rfl
      · have hb1 : (k == key) = false := by simpa using h
        have hb2 : (k == pk) = false := by simpa using (fun e => h (e.trans hp))
        rw [if_neg h, List.lookup_cons, List.lookup_cons, hb1, hb2, ih, if_neg h]
    · rw [List.map_cons, if_neg hp]
      by_cases h : k = key
      · have hb1 : (k == pk) = false := by simpa using (fun e => hp (e.symm.trans h))
        have hb2 : (key == pk) = false := by simpa using (fun e => hp e.symm)
        rw [if_pos h, List.lookup_cons, List.lookup_cons, hb1, hb2, ih, if_pos h]
      · rw [if_neg h, List.lookup_cons, List.lookup_cons, ih, if_neg h]

/-- A key some own property has is found by the lookup. -/
theorem lookup_isSome_of_any (object : JsObject) (key : String)
    (h : object.any (fun p => p.1 == key) = true) : (object.lookup key).isSome = true := by
  induction object with
  | nil => simp at h
  | cons p rest ih =>
    obtain ⟨pk, pv⟩ := p
    by_cases hp : pk = key
    · have hb : (key == pk) = true := by simpa using hp.symm
      rw [List.lookup_cons, hb]
      rfl
    · have hb : (key == pk) = false := by simpa using (fun e => hp e.symm)
      have hrest : rest.any (fun p => p.1 == key) = true := by
        simpa [List.any_cons, hp] using h
      rw [List.lookup_cons, hb]
      exact ih hrest

/-- The property found under a key after an assignment under a key other than
`__proto__`. -/
theorem lookup_assignProperty (object : JsObject) (key : String) (value : JVal)
    (hkey : key ≠ "__proto__") (k : String) :
    (assignProperty object key value).lookup k =
      if k = key then some value else object.lookup k := by
  unfold assignProperty
  rw [if_neg hkey]
  by_cases hany : object.any (fun p => p.1 == key) = true
  · rw [if_pos hany, lookup_map_replace]
    by_cases h : k = key
    · rw [if_pos h, if_pos h]
      have hs := lookup_isSome_of_any object key hany
      cases hl : object.lookup key with
      | none => rw [hl] at hs; cases hs
      | some v => rfl
    · rw [if_neg h, if_neg h]
  · rw [if_neg hany]
    have hnot : key ∉ object.map Prod.fst := by
      intro hmem
      apply hany
      simp only [List.mem_map] at hmem
      obtain ⟨p, hp, rfl⟩ := hmem
      exact List.any_eq_true.mpr ⟨p, hp, by simp⟩
    rw [lookup_append_singleton]
    by_cases h : k = key
    · subst h
      rw [lookup_eq_none_of_not_mem _ _ hnot, if_pos rfl]
    · rw [if_neg h]
      cases object.lookup k <;> simp [h]

/-- The object sent by `GET /api/settings` for a table with distinct keys: under every
key but `__proto__` it holds the value of the row stored under that key, if there is
one. -/
theorem getSettings_get (table : SettingsTable) (hkeys : (table.map Prod.fst).Nodup)
    (k : String) (hk : k ≠ "__proto__") :
    (getSettings none table).get k = (table.lookup k).map settingValue := by
  show (table.foldl (fun settings row => assignProperty settings row.1 (settingValue row.2))
    []).lookup k = _
  induction table using List.reverseRecOn with
  | nil => rfl
  | append_singleton init row ih =>
    rw [List.map_append, List.nodup_append] at hkeys
    obtain ⟨hinit, -, hdisj⟩ := hkeys
    have ih1 := ih hinit
    rw [List.foldl_append, List.foldl_cons, List.foldl_nil, lookup_append_singleton]
    by_cases hrow : row.1 = "__proto__"
    · have hne : k ≠ row.1 := fun e => hk (e.trans hrow)
      rw [if_neg hne]
      have : assignProperty
          (init.foldl (fun settings row => assignProperty settings row.1 (settingValue row.2)) [])
          row.1 (settingValue row.2) =
          init.foldl (fun settings row => assignProperty settings row.1 (settingValue row.2)) [] := by
        rw [hrow, assignProperty_proto]
      rw [this, ih1]
      cases init.lookup k <;> rfl
    · rw [lookup_assignProperty _ _ _ hrow, ih1]
      by_cases hne : k = row.1
      · subst hne
        have hnot : row.1 ∉ init.map Prod.fst := fun hm => hdisj hm (by simp)
        rw [lookup_eq_none_of_not_mem _ _ hnot, if_pos rfl, if_pos rfl]
        rfl
      · rw [if_neg hne, if_neg hne]
        cases init.lookup k <;> rfl

/-- The object sent by `GET /api/settings` never has an own property `__proto__`. -/
theorem getSettings_get_proto (table : SettingsTable) :
    (getSettings none table).get "__proto__" = none := by
  show (table.foldl (fun settings row => assignProperty settings row.1 (settingValue row.2))
    []).lookup "__proto__" = none
  induction table using List.reverseRecOn with
  | nil => rfl
  | append_singleton init row ih =>
    rw [List.foldl_append, List.foldl_cons, List.foldl_nil]
    by_cases hrow : row.1 = "__proto__"
    · rw [hrow, assignProperty_proto]
      exact ih
    · rw [lookup_assignProperty _ _ _ hrow, if_neg (fun e => hrow e.symm)]
      exact ih

/-- The round trip of the settings for every key but `__proto__`: after a batch all of
whose writes are carried out, `GET /api/settings` returns under each such key of the
batch the value written, and nothing under a key that neither the batch nor the table
holds. -/
theorem settings_round_trip_except_proto (body : JsObject) (hbody : (body.map Prod.fst).Nodup)
    (table : SettingsTable) (htable : (table.map Prod.fst).Nodup)
    (runOk : Nat → Bool) (hok : ∀ i, runOk i = true) (finalizeErr : Option String) :
    (∀ k v, (k, v) ∈ body → k ≠ "__proto__" →
      (getSettings none (postSettings body runOk finalizeErr table).1).get k = some v) ∧
    (∀ k, k ∉ body.map Prod.fst → k ∉ table.map Prod.fst →
      (getSettings none (postSettings body runOk finalizeErr table).1).get k = none) := by
  have hnd := nodup_keys_foldl_insertOrReplace body table htable
  constructor
  · intro k v hv hk
    show (getSettings none (postSettingsWrites body runOk table)).get k = _
    rw [postSettingsWrites_all_ok body runOk hok, getSettings_get _ hnd k hk,
      (lookup_foldl_insertOrReplace body hbody table k).1 v hv]
    rfl
  · intro k hk1 hk2
    show (getSettings none (postSettingsWrites body runOk table)).get k = _
    by_cases hk : k = "__proto__"
    · subst hk
      exact getSettings_get_proto _
    · rw [postSettingsWrites_all_ok body runOk hok, getSettings_get _ hnd k hk,
        (lookup_foldl_insertOrReplace body hbody table k).2 hk1,
        lookup_eq_none_of_not_mem _ _ hk2]
      rfl


/-- C22 (evaluation at the failing input): the body `{"__proto__": 1}` is written to an
empty table by `POST /api/settings`, all writes being carried out: the table then holds
the row of key `__proto__` and the call reports success, yet the object returned by
`GET /api/settings` has no entry under `__proto__`. The batch `{a: 1, b: "x"}` does
come back: `a` is 1 and `c` is absent. -/
theorem proto_key_lost_by_get :
    (postSettings protoBatch (fun _ => true) none []).1.map Prod.fst = ["__proto__"] ∧
    (postSettings protoBatch (fun _ => true) none []).1.lookup "__proto__" =
      some (SettingText.json (JVal.num 1)) ∧
    (postSettings protoBatch (fun _ => true) none []).2 = SettingsResponse.success ∧
    (getSettings none (postSettings protoBatch (fun _ => true) none []).1).get "__proto__" =
      none ∧
    (getSettings none (postSettings sampleBatch (fun _ => true) none []).1).get "a" =
      some (JVal.num 1) ∧
    (getSettings none (postSettings sampleBatch (fun _ => true) none []).1).get "c" = none :=
  ⟨by decide, rfl, rfl, rfl, rfl, rfl⟩

/-- C23: of two successive settings batches, all of whose writes are carried out, the
later one wins: for a key `k` the later batch writes, the table afterwards holds under
`k` the value of the later batch, in exactly one row, and a key written by the earlier
batch alone keeps the value the earlier batch gave it; `GET /api/settings` returns
these values under every such key other than `__proto__`. -/
theorem settings_last_write_wins (table : SettingsTable)
    (htable : (table.map Prod.fst).Nodup) (batch1 batch2 : JsObject)
    (h1 : (batch1.map Prod.fst).Nodup) (h2 : (batch2.map Prod.fst).Nodup)
    (runOk1 runOk2 : Nat → Bool) (hok1 : ∀ i, runOk1 i = true) (hok2 : ∀ i, runOk2 i = true)
    (err1 err2 : Option String) (k : String) (v2 : JVal) (hk : (k, v2) ∈ batch2) :
    (postSettings batch2 runOk2 err2 (postSettings batch1 runOk1 err1 table).1).1.lookup k =
      some (SettingText.json v2) ∧
    (postSettings batch2 runOk2 err2 (postSettings batch1 runOk1 err1 table).1).1.countP
      (fun row => row.1 = k) = 1 ∧
    (∀ k1 v1, (k1, v1) ∈ batch1 → k1 ∉ batch2.map Prod.fst →
      (postSettings batch2 runOk2 err2 (postSettings batch1 runOk1 err1 table).1).1.lookup k1 =
        some (SettingText.json v1)) ∧
    (k ≠ "__proto__" →
      (getSettings none
        (postSettings batch2 runOk2 err2 (postSettings batch1 runOk1 err1 table).1).1).get k =
        some v2) ∧
    (∀ k1 v1, (k1, v1) ∈ batch1 → k1 ∉ batch2.map Prod.fst → k1 ≠ "__proto__" →
      (getSettings none
        (postSettings batch2 runOk2 err2 (postSettings batch1 runOk1 err1 table).1).1).get k1 =
        some v1) := by
  have e1 : (postSettings batch1 runOk1 err1 table).1 =
      batch1.foldl (fun t entry => insertOrReplace entry.1 (SettingText.json entry.2) t) table :=
    postSettingsWrites_all_ok batch1 runOk1 hok1 table
  have e2 : ∀ t, (postSettings batch2 runOk2 err2 t).1 =
      batch2.foldl (fun t entry => insertOrReplace entry.1 (SettingText.json entry.2) t) t :=
    fun t => postSettingsWrites_all_ok batch2 runOk2 hok2 t
  have hnd1 := nodup_keys_foldl_insertOrReplace batch1 table htable
  have hnd2 := nodup_keys_foldl_insertOrReplace batch2 _ hnd1
  have hlookup := (lookup_foldl_insertOrReplace batch2 h2
    (batch1.foldl (fun t entry => insertOrReplace entry.1 (SettingText.json entry.2) t) table)
    k).1 v2 hk
  have hkeep : ∀ k1 v1, (k1, v1) ∈ batch1 → k1 ∉ batch2.map Prod.fst →
      (batch2.foldl (fun t entry => insertOrReplace entry.1 (SettingText.json entry.2) t)
        (batch1.foldl (fun t entry => insertOrReplace entry.1 (SettingText.json entry.2) t)
          table)).lookup k1 = some (SettingText.json v1) := by
    intro k1 v1 hv1 hnot
    rw [(lookup_foldl_insertOrReplace batch2 h2 _ k1).2 hnot]
    exact (lookup_foldl_insertOrReplace batch1 h1 table k1).1 v1 hv1
  rw [e2, e1]
  refine ⟨hlookup, ?_, hkeep, ?_, ?_⟩
  · exact countP_foldl_insertOrReplace batch2 _ k (List.mem_map.mpr ⟨(k, v2), hk, rfl⟩)
  · intro hproto
    rw [getSettings_get _ hnd2 k hproto, hlookup]
    rfl
  · intro k1 v1 hv1 hnot hproto
    rw [getSettings_get _ hnd2 k1 hproto, hkeep k1 v1 hv1 hnot]
    rfl

/-- C23, witness: the batch `{a: 1, b: "x"}` followed by the batch `{a: 2}`. -/
theorem settings_last_write_wins_witness :
    (postSettings [("a", JVal.num 2)] (fun _ => true) none
      (postSettings sampleBatch (fun _ => true) none []).1).1.lookup "a" =
      some (SettingText.json (JVal.num 2)) ∧
    (postSettings [("a", JVal.num 2)] (fun _ => true) none
      (postSettings sampleBatch (fun _ => true) none []).1).1.countP
      (fun row => row.1 = "a") = 1 ∧
    (postSettings [("a", JVal.num 2)] (fun _ => true) none
      (postSettings sampleBatch (fun _ => true) none []).1).1.lookup "b" =
      some (SettingText.json (JVal.str "x")) :=
  ⟨(settings_last_write_wins [] (by decide) sampleBatch [("a", JVal.num 2)] (by decide)
      (by decide) (fun _ => true) (fun _ => true) (fun _ => rfl) (fun _ => rfl) none none
      "a" (JVal.num 2) (List.mem_singleton_self _)).1,
    (settings_last_write_wins [] (by decide) sampleBatch [("a", JVal.num 2)] (by decide)
      (by decide) (fun _ => true) (fun _ => true) (fun _ => rfl) (fun _ => rfl) none none
      "a" (JVal.num 2) (List.mem_singleton_self _)).2.1,
    (settings_last_write_wins [] (by decide) sampleBatch [("a", JVal.num 2)] (by decide)
      (by decide) (fun _ => true) (fun _ => true) (fun _ => rfl) (fun _ => rfl) none none
      "a" (JVal.num 2) (List.mem_singleton_self _)).2.2.1 "b" (JVal.str "x")
      (List.mem_cons_of_mem _ (List.mem_singleton_self _)) (by decide)⟩


/-- Folding with a step that is skipped on some entries is folding over the entries on
which it is not skipped. -/
theorem foldl_if_eq_foldl_filter {α β : Type} (p : α → Bool) (f : β → α → β) (l : List α)
    (init : β) :
    l.foldl (fun t e => if p e then f t e else t) init = (l.filter p).foldl f init := by
  induction l generalizing init with
  | nil => rfl
  | cons a rest ih =>
    by_cases h : p a = true
    · rw [List.foldl_cons, if_pos h, List.filter_cons_of_pos h, List.foldl_cons]
      exact ih _
    · rw [List.foldl_cons, if_neg h, List.filter_cons_of_neg h]
      exact ih _

/-- C24, as stated, fails: the batch `{a: 1, b: "x"}` is posted to an empty table and the
write of `b` fails: afterwards the table holds `a` and not `b`, so neither is every
entry stored nor is the table unchanged. -/
theorem failed_write_leaves_partial_batch :
    (List.map Prod.fst ([] : SettingsTable)) = [] ∧
    (postSettings sampleBatch (fun i => i != 1) none []).1.map Prod.fst = ["a"] ∧
    (postSettings sampleBatch (fun i => i != 1) none []).1.lookup "a" =
      some (SettingText.json (JVal.num 1)) ∧
    (postSettings sampleBatch (fun i => i != 1) none []).1.lookup "b" = none :=
  ⟨rfl, by decide, rfl, rfl⟩

/-- C24, amended: a settings batch is written entry by entry, each entry by its own
`INSERT OR REPLACE` outside any transaction: the table afterwards is the table of before
with exactly the writes that were carried out applied in order, so a failed write undoes
none of the others; when every write is carried out and `finalize` reports no error the
call reports success, and when `finalize` reports an error the call reports it with
status 500. -/
theorem settings_batch_written_entry_by_entry (body : JsObject) (runOk : Nat → Bool)
    (finalizeErr : Option String) (table : SettingsTable) :
    (postSettings body runOk finalizeErr table).1 =
      (body.enum.filter (fun entry => runOk entry.1)).foldl
        (fun t entry => insertOrReplace entry.2.1 (SettingText.json entry.2.2) t) table ∧
    ((∀ i, runOk i = true) → finalizeErr = none →
      (postSettings body runOk finalizeErr table).1 =
        body.foldl (fun t entry => insertOrReplace entry.1 (SettingText.json entry.2) t) table ∧
      (postSettings body runOk finalizeErr table).2 = SettingsResponse.success) ∧
    (∀ message, finalizeErr = some message →
      (postSettings body runOk finalizeErr table).2 = SettingsResponse.error 500 message) := by
  refine ⟨?_, ?_, ?_⟩
  · exact foldl_if_eq_foldl_filter (fun entry => runOk entry.1)
      (fun t entry => insertOrReplace entry.2.1 (SettingText.json entry.2.2) t) body.enum table
  · intro hok herr
    subst herr
    exact ⟨postSettingsWrites_all_ok body runOk hok table, rfl⟩
  · intro message herr
    subst herr
    rfl

/-- C24 amended, witness: the batch `{a: 1, b: "x"}` with every write carried out. -/
theorem settings_batch_written_entry_by_entry_witness :
    (postSettings sampleBatch (fun _ => true) none []).1 =
      sampleBatch.foldl (fun t entry => insertOrReplace entry.1 (SettingText.json entry.2) t)
        [] ∧
    (postSettings sampleBatch (fun _ => true) none []).2 = SettingsResponse.success :=
  (settings_batch_written_entry_by_entry sampleBatch (fun _ => true) none []).2.1
    (fun _ => rfl) rfl

/-- An insert keeps the file paths of the table distinct. -/
theorem upsertRecord_unique (record : Screenshot) (update : Bool) (rows : List Screenshot)
    (h : uniqueFilePaths rows) : uniqueFilePaths (upsertRecord record update rows).1 := by
  unfold upsertRecord
  cases hfind : rows.find? (fun r => r.file_path = record.file_path) with
  | some stored =>
    cases update with
    | false => exact h
    | true =>
      unfold uniqueFilePaths at *
      have hmap : (rows.map (fun r =>
          if r.file_path = record.file_path then { record with id := r.id } else r)).map
          (fun r => r.file_path) = rows.map (fun r => r.file_path) := by
        rw [List.map_map]
        apply List.map_congr_left
        intro r _
        by_cases hr : r.file_path = record.file_path
        · simp [hr]
        · simp [hr]
      simp only [if_true]
      rw [hmap]
      exact h
  | none =>
    unfold uniqueFilePaths at *
    have hnot : ∀ r ∈ rows, r.file_path ≠ record.file_path := by
      intro r hr
      have := List.find?_eq_none.mp hfind r hr
      simpa using this
    simp only [List.map_append, List.map_cons, List.map_nil]
    refine List.Nodup.append h (List.nodup_singleton _) ?_
    intro p hp hq
    simp only [List.mem_singleton] at hq
    subst hq
    obtain ⟨r, hr, hpath⟩ := List.mem_map.mp hp
    exact hnot r hr hpath

/-- C25: against the insert `upsertRecord` described by the spec, every sequence of
inserts into a table whose file paths are distinct, the empty table among them, leaves
the file paths distinct; and inserting a path that is already stored returns the id of
the stored record and leaves the number of records as it was. -/
theorem upsert_keeps_paths_unique (rows : List Screenshot) (hrows : uniqueFilePaths rows)
    (inserts : List (Screenshot × Bool)) :
    uniqueFilePaths (upsertAll inserts rows) ∧
    uniqueFilePaths (upsertAll inserts []) ∧
    ∀ (record : Screenshot) (update : Bool) (stored : Screenshot), stored ∈ rows →
      stored.file_path = record.file_path →
      (upsertRecord record update rows).1.length = rows.length ∧
      (upsertRecord record update rows).2 = stored.id ∧
      (upsertRecord record update rows).1.countP
        (fun r => r.file_path = record.file_path) = 1 := by
  have hall : ∀ (ins : List (Screenshot × Bool)) (t : List Screenshot),
      uniqueFilePaths t → uniqueFilePaths (upsertAll ins t) := by
    intro ins
    induction ins with
    | nil => intro t ht; exact ht
    | cons i rest ih => intro t ht; exact ih _ (upsertRecord_unique i.1 i.2 t ht)
  refine ⟨hall inserts rows hrows, hall inserts [] List.nodup_nil, ?_⟩
  intro record update stored hmem hpath
  have hunique := upsertRecord_unique record update rows hrows
  have hcount : ∀ t : List Screenshot, uniqueFilePaths t →
      (∃ r ∈ t, r.file_path = record.file_path) →
      t.countP (fun r => r.file_path = record.file_path) = 1 := by
    intro t ht hex
    have h1 : t.countP (fun r => decide (r.file_path = record.file_path)) =
        (t.map (fun r => r.file_path)).count record.file_path := by
      rw [List.count, List.countP_map]
      apply List.countP_congr
      intro r _
      simp
    rw [h1]
    apply List.count_eq_one_of_mem ht
    obtain ⟨r, hr, hp⟩ := hex
    exact List.mem_map.mpr ⟨r, hr, hp⟩
  cases hfind : rows.find? (fun r => r.file_path = record.file_path) with
  | none =>
    have := List.find?_eq_none.mp hfind stored hmem
    simp [hpath] at this
  | some found =>
    have hfound := List.find?_some hfind
    have hfmem := List.mem_of_find?_eq_some hfind
    have hsame : found = stored := by
      have hp : found.file_path = stored.file_path := by
        rw [hpath]
        simpa using hfound
      exact List.inj_on_of_nodup_map hrows hfmem hmem hp
    have hlen : (upsertRecord record update rows).1.length = rows.length := by
      unfold upsertRecord
      rw [hfind]
      cases update <;> simp
    have hid : (upsertRecord record update rows).2 = stored.id := by
      unfold upsertRecord
      rw [hfind, hsame]
    refine ⟨hlen, hid, hcount _ hunique ?_⟩
    unfold upsertRecord
    rw [hfind]
    cases update with
    | false => exact ⟨stored, hmem, hpath⟩
    | true =>
      refine ⟨{ record with id := stored.id }, ?_, rfl⟩
      simp only [if_true]
      exact List.mem_map.mpr ⟨stored, hmem, by simp [hpath]⟩

/-- C25, witness: a path inserted twice, first plainly and then with new attributes. -/
theorem upsert_keeps_paths_unique_witness :
    uniqueFilePaths (upsertAll [(sampleRow 7 none none, false),
      (sampleRow 7 (some "Code") none, true)] []) ∧
    (upsertAll [(sampleRow 7 none none, false), (sampleRow 7 (some "Code") none, true)]
      []).length = 1 :=
  ⟨(upsert_keeps_paths_unique [] (by decide) [(sampleRow 7 none none, false),
      (sampleRow 7 (some "Code") none, true)]).2.1, by decide⟩

end SmartShot
